import Mathlib

/-!
Shallow embedding of the battle engine of the mindforge-backend repository.

The definitions below are direct translations of the TypeScript sources:
  * `src/services/battle/damage.service.ts`   (elemental table, damage calculator)
  * `src/services/battle/effects.service.ts`  (status effects, buffs, ticking)
  * `src/services/battle/turn.service.ts`     (turn orchestration, `executeBattleTurn`)
  * `src/controllers/battle.controller.ts`    (`processTurnAction`)
  * `src/repositories/base.repository.ts` and `src/services/battle-rewards.service.ts`
    (reward / leveling subsystem)

JavaScript numbers are modelled as `Int` where the source only ever stores
integers (stats, health, damage after `Math.floor`) and as `ℚ` for the
intermediate damage arithmetic.  `Math.random()` draws are modelled by an
explicit stream of rationals (`Rng`), consumed in exactly the order the source
draws them.  Prisma rows live in an explicit `Db` record; every Prisma
`update`/`create` becomes a pure function from `Db` to `Db`.
-/

namespace Mindforge

/-- JS truthiness for an optional string (`undefined`/`null`/`""` are falsy). -/
def truthyStr : Option String → Bool
  | none => false
  | some s => s ≠ ""

/-- JS truthiness for an optional number (`undefined`/`null`/`0` are falsy). -/
def truthyInt : Option Int → Bool
  | none => false
  | some n => n ≠ 0

/-- Stream of `Math.random()` results; each element is meant to lie in `[0,1)`. -/
def Rng := List ℚ

/-- One `Math.random()` draw; an exhausted stream keeps returning `0`. -/
def Rng.next : Rng → ℚ × Rng
  | [] => (0, [])
  | x :: xs => (x, xs)

/-! ## Elemental affinity table (`damage.service.ts`, `calculateElementalAdvantage`) -/

/-- `advantageTable` of `damage.service.ts` (attacker type ↦ types it is strong against). -/
def advantageTable : String → List String
  | "fire" => ["nature", "ice", "steel", "bug"]
  | "water" => ["fire", "earth", "rock"]
  | "earth" => ["electric", "poison", "fire", "rock", "steel"]
  | "air" => ["earth", "fighting", "bug"]
  | "light" => ["dark", "ghost"]
  | "dark" => ["light", "psychic", "ghost"]
  | "nature" => ["water", "earth", "rock"]
  | "electric" => ["water", "air", "flying"]
  | "ice" => ["nature", "air", "dragon", "flying"]
  | "psychic" => ["fighting", "poison"]
  | "ghost" => ["psychic", "ghost"]
  | "steel" => ["ice", "rock", "fairy"]
  | "poison" => ["nature", "fairy"]
  | "flying" => ["fighting", "bug", "nature"]
  | "rock" => ["fire", "ice", "flying", "bug"]
  | _ => []

/-- `disadvantageTable` of `damage.service.ts` (attacker type ↦ types it is weak against). -/
def disadvantageTable : String → List String
  | "fire" => ["water", "earth", "rock"]
  | "water" => ["nature", "electric"]
  | "earth" => ["water", "ice", "nature"]
  | "air" => ["electric", "ice", "rock"]
  | "light" => ["dark"]
  | "dark" => ["light", "fighting", "bug"]
  | "nature" => ["fire", "ice", "poison", "flying", "bug"]
  | "electric" => ["earth", "nature"]
  | "ice" => ["fire", "fighting", "rock", "steel"]
  | "psychic" => ["dark", "ghost", "bug"]
  | "ghost" => ["dark"]
  | "steel" => ["fire", "fighting", "earth"]
  | "poison" => ["steel", "earth", "psychic"]
  | "flying" => ["electric", "ice", "rock"]
  | "rock" => ["water", "nature", "fighting", "earth", "steel"]
  | _ => []

/-- `immunities` of `damage.service.ts` (defender type ↦ attacker types it is immune to). -/
def immunities : String → List String
  | "earth" => ["electric"]
  | "ghost" => ["fighting", "normal"]
  | "dark" => ["psychic"]
  | "flying" => ["earth"]
  | _ => []

/-- `calculateElementalAdvantage` of `damage.service.ts`: same-type check first,
then immunities, then the advantage table, then the disadvantage table, else 1. -/
def calculateElementalAdvantage (attackerType defenderType : String) : ℚ :=
  if attackerType = defenderType then 1/2
  else if (immunities defenderType).contains attackerType then 0
  else if (advantageTable attackerType).contains defenderType then 3/2
  else if (disadvantageTable attackerType).contains defenderType then 1/2
  else 1

/-! ## Data model (Prisma rows) -/

/-- `Battle` row. -/
structure Battle where
  id : String
  currentTurn : Int
  isFinished : Bool
  winnerId : Option String
  deriving Repr, DecidableEq

/-- `BattleParticipant` row. -/
structure Participant where
  id : String
  battleId : String
  userId : Option String
  enemyId : Option String
  participantType : String
  teamId : String
  position : Int
  currentHealth : Int
  currentPhysicalAttack : Int
  currentSpecialAttack : Int
  currentPhysicalDefense : Int
  currentSpecialDefense : Int
  currentSpeed : Int
  deriving Repr, DecidableEq

/-- `BattleStatusEffect` row.  The `kind` field is the row's `type` column. -/
structure StatusEffectRow where
  id : Nat
  battleParticipantId : String
  kind : String
  remainingTurns : Int
  value : Int
  deriving Repr, DecidableEq

/-- `BattleBuff` row. -/
structure BuffRow where
  id : Nat
  battleParticipantId : String
  attr : String
  value : Int
  remainingTurns : Int
  stackCount : Int
  deriving Repr, DecidableEq

/-- `Skill` row.  `statusEffect`/`buffType`/`debuffType` and the companion
numeric columns are nullable exactly as in the Prisma schema. -/
structure Skill where
  id : String
  elementalType : String
  attackType : String
  baseDamage : Int
  accuracy : Int
  statusEffect : Option String
  statusEffectChance : Option Int
  statusEffectDuration : Option Int
  buffType : Option String
  buffValue : Option Int
  debuffType : Option String
  debuffValue : Option Int
  deriving Repr, DecidableEq

/-- `UserSkill` row (equip relation). -/
structure UserSkillRow where
  userId : String
  skillId : String
  equipped : Bool
  deriving Repr, DecidableEq

/-- The slice of the `User` row the battle engine reads. -/
structure UserRow where
  id : String
  primaryElementalType : Option String
  level : Int
  experience : Int
  attributePointsToDistribute : Int
  deriving Repr, DecidableEq

/-- The slice of the `Enemy` row the battle engine reads. -/
structure EnemyRow where
  id : String
  elementalType : Option String
  physicalAttack : Int
  specialAttack : Int
  physicalDefense : Int
  specialDefense : Int
  speed : Int
  deriving Repr, DecidableEq

/-- `BattleReward` ledger row (unique on `(userId, battleId)`). -/
structure BattleRewardRow where
  userId : String
  battleId : String
  experienceGained : Int
  leveledUp : Bool
  attributePointsGained : Int
  deriving Repr, DecidableEq

/-- The persistent store the engine reads from and writes to. -/
structure Db where
  battle : Battle
  participants : List Participant
  statusEffects : List StatusEffectRow
  buffs : List BuffRow
  skills : List Skill
  userSkills : List UserSkillRow
  users : List UserRow
  enemies : List EnemyRow
  battleRewards : List BattleRewardRow
  nextId : Nat
  deriving Repr, DecidableEq

/-- `prisma.battleParticipant.findUnique({ where: { id } })`. -/
def Db.findParticipant (db : Db) (pid : String) : Option Participant :=
  db.participants.find? (fun p => p.id = pid)

/-- `prisma.battleParticipant.update({ where: { id }, data })` — apply `f` to
the row(s) whose id is `pid`. -/
def Db.updateParticipant (db : Db) (pid : String) (f : Participant → Participant) : Db :=
  { db with participants := db.participants.map (fun p => if p.id = pid then f p else p) }

/-- `prisma.battleStatusEffect.update({ where: { id }, data })`. -/
def Db.updateStatusEffect (db : Db) (eid : Nat) (f : StatusEffectRow → StatusEffectRow) : Db :=
  { db with statusEffects := db.statusEffects.map (fun e => if e.id = eid then f e else e) }

/-- `prisma.battleBuff.update({ where: { id }, data })`. -/
def Db.updateBuff (db : Db) (bid : Nat) (f : BuffRow → BuffRow) : Db :=
  { db with buffs := db.buffs.map (fun b => if b.id = bid then f b else b) }

/-! ## Damage calculator (`damage.service.ts`, `calculateDamage`) -/

/-- `StatusEffectData` of `types/battle.ts` (a proposed status effect). -/
structure StatusEffectData where
  kind : String
  chance : Int
  duration : Int
  value : Int
  applied : Bool
  deriving Repr, DecidableEq

/-- `BuffData` of `types/battle.ts` (a proposed buff or debuff). -/
structure BuffData where
  attr : String
  value : Int
  duration : Int
  applied : Bool
  deriving Repr, DecidableEq

/-- `BattleActionResult` of `types/battle.ts`. -/
structure BattleActionResult where
  damage : Int
  isCritical : Bool
  accuracy : Bool
  statusEffects : List StatusEffectData
  buffs : List BuffData
  debuffs : List BuffData
  messages : List String
  deriving Repr, DecidableEq

/-- Lines 114-157 of `calculateDamage` (`damage.service.ts`): stat selection by
attack category, STAB, type advantage, critical and variance multipliers, the
floor, and the minimum of 1 with the immune exception (`typeAdvantage = 0`
forces exactly 0). -/
def damageRoll (attacker defender : Participant) (skill : Skill)
    (attackerType defenderType : String) (critRoll varRoll : ℚ) : Int :=
  let isPhysical := skill.attackType = "physical"
  let attack : ℚ := if isPhysical then attacker.currentPhysicalAttack else attacker.currentSpecialAttack
  let defense : ℚ := if isPhysical then defender.currentPhysicalDefense else defender.currentSpecialDefense
  let stabBonus : ℚ := if skill.elementalType = attackerType then 3/2 else 1
  let typeAdvantage := calculateElementalAdvantage skill.elementalType defenderType
  let isCritical := critRoll < 1/20
  let criticalMultiplier : ℚ := if isCritical then 3/2 else 1
  let randomFactor : ℚ := 17/20 + varRoll * (3/20)
  let baseDamage : ℚ := (attack / defense) * skill.baseDamage
  if typeAdvantage = 0 then 0
  else max 1 ⌊baseDamage * stabBonus * typeAdvantage * criticalMultiplier * randomFactor⌋

/-- Lines 166-195 of `calculateDamage` (`damage.service.ts`): the proposed
status effect — burn and poison magnitudes are fractions of the defender's
current health (`ceil(health/15)` and `ceil(health/10)`), bleed is
`max(7, floor(damage * 0.18))`, every other type gets 0; the duration is
`floor(durRoll * declaredCeiling) + 1`. -/
def proposedStatusEffect (defender : Participant) (skill : Skill) (damage : Int)
    (statusRoll durRoll : ℚ) : StatusEffectData :=
  let se := skill.statusEffect.getD ""
  let chance := skill.statusEffectChance.getD 0
  let dur := skill.statusEffectDuration.getD 0
  let statusApplied := statusRoll * 100 ≤ (chance : ℚ)
  let effectValue : Int :=
    if se = "burn" then ⌈(defender.currentHealth : ℚ) / 15⌉
    else if se = "poison" then ⌈(defender.currentHealth : ℚ) / 10⌉
    else if se = "bleed" then max 7 ⌊(damage : ℚ) * (18/100)⌋
    else 0
  { kind := se, chance := chance, duration := ⌊durRoll * dur⌋ + 1,
    value := effectValue, applied := statusApplied }

/-- The type-advantage commentary messages of `calculateDamage` (lines 129-135). -/
def advantageMessages (typeAdvantage : ℚ) : List String :=
  if typeAdvantage > 1 then ["É super efetivo!"]
  else if typeAdvantage < 1 ∧ typeAdvantage > 0 then ["Não é muito efetivo..."]
  else if typeAdvantage = 0 then ["Não afeta o oponente..."]
  else []

/-- `calculateDamage` of `damage.service.ts`.  The three to five `Math.random()`
draws are consumed from `rng` in source order: accuracy roll (only when
`skill.accuracy < 100`), critical roll, variance roll, status-effect chance
roll and status-effect duration roll (the last two only when the skill defines
a status effect). -/
def calculateDamage (attacker defender : Participant) (skill : Skill)
    (attackerType defenderType : String) (rng : Rng) : BattleActionResult × Rng :=
  let result : BattleActionResult :=
    { damage := 0, isCritical := false, accuracy := true,
      statusEffects := [], buffs := [], debuffs := [], messages := [] }
  -- accuracy check: skills with 100% accuracy never draw
  let (missed, rng) :=
    if skill.accuracy < 100 then
      let (r, rng) := rng.next
      (r * 100 > (skill.accuracy : ℚ), rng)
    else (false, rng)
  if missed then
    ({ result with accuracy := false, messages := ["O ataque errou!"] }, rng)
  else
    let typeAdvantage := calculateElementalAdvantage skill.elementalType defenderType
    let (critRoll, rng) := rng.next
    let isCritical := critRoll < 1/20
    let (varRoll, rng) := rng.next
    let damage := damageRoll attacker defender skill attackerType defenderType critRoll varRoll
    let messages := advantageMessages typeAdvantage
    let messages := if isCritical then messages ++ ["Acerto crítico!"] else messages
    let result := { result with damage := damage, isCritical := isCritical, messages := messages }
    -- status effect proposal
    let (result, rng) :=
      if truthyStr skill.statusEffect ∧ truthyInt skill.statusEffectChance ∧
          truthyInt skill.statusEffectDuration then
        let (statusRoll, rng) := rng.next
        let (durRoll, rng) := rng.next
        ({ result with statusEffects := result.statusEffects ++
            [proposedStatusEffect defender skill damage statusRoll durRoll] }, rng)
      else (result, rng)
    -- buff proposal (always applied, fixed 3-turn duration)
    let result :=
      if truthyStr skill.buffType ∧ truthyInt skill.buffValue then
        { result with buffs := result.buffs ++
            [{ attr := skill.buffType.getD "", value := skill.buffValue.getD 0,
               duration := 3, applied := true }] }
      else result
    -- debuff proposal
    let result :=
      if truthyStr skill.debuffType ∧ truthyInt skill.debuffValue then
        { result with debuffs := result.debuffs ++
            [{ attr := skill.debuffType.getD "", value := skill.debuffValue.getD 0,
               duration := 3, applied := true }] }
      else result
    (result, rng)

/-! ## Effect lifecycle manager (`effects.service.ts`) -/

/-- `getStatusEffectName` of `effects.service.ts`. -/
def getStatusEffectName (kind : String) : String :=
  if kind = "burn" then "Queimadura"
  else if kind = "poison" then "Envenenamento"
  else if kind = "stun" then "Atordoamento"
  else if kind = "freeze" then "Congelamento"
  else if kind = "blind" then "Cegueira"
  else if kind = "bleed" then "Sangramento"
  else if kind = "confuse" then "Confusão"
  else "Efeito desconhecido"

/-- `getAttributeName` of `effects.service.ts`. -/
def getAttributeName (a : String) : String :=
  if a = "physicalAttack" then "Ataque Físico"
  else if a = "specialAttack" then "Ataque Especial"
  else if a = "physicalDefense" then "Defesa Física"
  else if a = "specialDefense" then "Defesa Especial"
  else if a = "speed" then "Velocidade"
  else "Atributo desconhecido"

/-- `getParticipantName` of `effects.service.ts`. -/
def getParticipantName (p : Participant) : String :=
  if p.participantType = "user" then "Jogador" else "Inimigo"

/-- The `switch (buff.attribute)` blocks of `effects.service.ts`: add `v` to the
named combat stat, and change nothing when the name matches no case. -/
def incAttr (a : String) (v : Int) (p : Participant) : Participant :=
  if a = "physicalAttack" then { p with currentPhysicalAttack := p.currentPhysicalAttack + v }
  else if a = "specialAttack" then { p with currentSpecialAttack := p.currentSpecialAttack + v }
  else if a = "physicalDefense" then { p with currentPhysicalDefense := p.currentPhysicalDefense + v }
  else if a = "specialDefense" then { p with currentSpecialDefense := p.currentSpecialDefense + v }
  else if a = "speed" then { p with currentSpeed := p.currentSpeed + v }
  else p

/-- `applyStatusEffect` of `effects.service.ts`: rejected when the proposal was
not rolled (`applied = false`) or an active effect of the same type already
exists; otherwise the row is created and burn immediately cuts the current
physical attack by `Math.floor(attack * 0.3)`. -/
def applyStatusEffect (db : Db) (participantId : String) (effect : StatusEffectData) :
    Db × Bool :=
  if ¬effect.applied then (db, false)
  else
    let existingEffect := db.statusEffects.find? (fun e =>
      e.battleParticipantId = participantId ∧ e.kind = effect.kind ∧ e.remainingTurns > 0)
    match existingEffect with
    | some _ => (db, false)
    | none =>
      let db : Db := { db with
        statusEffects := db.statusEffects ++
          [{ id := db.nextId, battleParticipantId := participantId,
             kind := effect.kind, remainingTurns := effect.duration, value := effect.value }],
        nextId := db.nextId + 1 }
      match db.findParticipant participantId with
      | none => (db, true)
      | some participant =>
        if effect.kind = "burn" then
          let physicalAttackReduction : Int := ⌊(participant.currentPhysicalAttack : ℚ) * (3/10)⌋
          (db.updateParticipant participantId (fun p =>
            { p with currentPhysicalAttack := p.currentPhysicalAttack - physicalAttackReduction }),
           true)
        else (db, true)

/-- `applyBuff` of `effects.service.ts`.  Debuffs are buffs with a negated
value.  An active buff on the same attribute below the 3-stack cap gets its
stack incremented, its duration reset and its stored value accumulated, and the
increment is added to the participant's stat; at the cap nothing changes but
the call still reports success. -/
def applyBuff (db : Db) (participantId : String) (buff : BuffData) : Db × Bool :=
  if ¬buff.applied then (db, false)
  else
    let existingBuff := db.buffs.find? (fun b =>
      b.battleParticipantId = participantId ∧ b.attr = buff.attr ∧ b.remainingTurns > 0)
    match existingBuff with
    | some eb =>
      if eb.stackCount < 3 then
        let db := db.updateBuff eb.id (fun b =>
          { b with stackCount := b.stackCount + 1, remainingTurns := buff.duration,
                   value := eb.value + buff.value })
        (db.updateParticipant participantId (incAttr buff.attr buff.value), true)
      else (db, true)
    | none =>
      let db : Db := { db with
        buffs := db.buffs ++
          [{ id := db.nextId, battleParticipantId := participantId, attr := buff.attr,
             value := buff.value, remainingTurns := buff.duration, stackCount := 1 }],
        nextId := db.nextId + 1 }
      (db.updateParticipant participantId (incAttr buff.attr buff.value), true)

/-- Per-participant entry of the record returned by `processStatusEffects`. -/
structure StatusTickResult where
  damage : Int
  stunned : Bool
  messages : List String
  deriving Repr, DecidableEq

/-- Overwrite-or-append assignment on a JS object modelled as an assoc list. -/
def setResult {α : Type} (l : List (String × α)) (k : String) (v : α) : List (String × α) :=
  if (l.find? (fun kv => kv.1 = k)).isSome then
    l.map (fun kv => if kv.1 = k then (k, v) else kv)
  else l ++ [(k, v)]

/-- Update the value stored under `k` (no-op when `k` is absent). -/
def modifyResult {α : Type} (l : List (String × α)) (k : String) (f : α → α) :
    List (String × α) :=
  l.map (fun kv => if kv.1 = k then (k, f kv.2) else kv)

/-- Inner loop body of `processStatusEffects` for one already-fetched effect
snapshot `e` of participant `p`: decrement the row, apply damage-over-time,
flag stun/freeze, and on expiry (`remainingTurns ≤ 1` before the decrement)
undo burn's attack reduction by estimating the original attack as
`Math.round(current / 0.7)`. -/
def processOneStatusEffect (p : Participant) (acc : Db × List (String × StatusTickResult))
    (e : StatusEffectRow) : Db × List (String × StatusTickResult) :=
  let (db, results) := acc
  let db := db.updateStatusEffect e.id (fun r => { r with remainingTurns := r.remainingTurns - 1 })
  let (db, results) :=
    if e.kind = "burn" ∨ e.kind = "poison" ∨ e.kind = "bleed" then
      let db := db.updateParticipant p.id (fun q =>
        { q with currentHealth := q.currentHealth - e.value })
      (db, modifyResult results p.id (fun r =>
        { r with damage := r.damage + e.value,
                 messages := r.messages ++
                   [getParticipantName p ++ " sofreu " ++ toString e.value ++
                    " de dano por " ++ getStatusEffectName e.kind] }))
    else (db, results)
  let results :=
    if e.kind = "stun" ∨ e.kind = "freeze" then
      modifyResult results p.id (fun r =>
        { r with stunned := true,
                 messages := r.messages ++
                   [getParticipantName p ++
                    (if e.kind = "stun" then " está atordoado" else " está congelado") ++
                    " e não pode agir neste turno"] })
    else results
  if e.remainingTurns ≤ 1 then
    let db :=
      if e.kind = "burn" then
        match db.findParticipant p.id with
        | none => db
        | some currentParticipant =>
          let originalAttack : Int := round ((currentParticipant.currentPhysicalAttack : ℚ) / (7/10))
          let attackToRestore := originalAttack - currentParticipant.currentPhysicalAttack
          if attackToRestore > 0 then
            db.updateParticipant p.id (fun q =>
              { q with currentPhysicalAttack := q.currentPhysicalAttack + attackToRestore })
          else db
      else db
    (db, modifyResult results p.id (fun r =>
      { r with messages := r.messages ++
          [getStatusEffectName e.kind ++ " em " ++ getParticipantName p ++ " expirou"] }))
  else (db, results)

/-- `processStatusEffects` of `effects.service.ts`: for every participant of
the (stale) loaded list, fetch its active effects from the store and run
`processOneStatusEffect` over them in order. -/
def processStatusEffects (db : Db) (participants : List Participant) :
    Db × List (String × StatusTickResult) :=
  participants.foldl
    (fun (acc : Db × List (String × StatusTickResult)) p =>
      let (db, results) := acc
      let results := setResult results p.id { damage := 0, stunned := false, messages := [] }
      let statusEffects := db.statusEffects.filter (fun e =>
        e.battleParticipantId = p.id ∧ e.remainingTurns > 0)
      statusEffects.foldl (processOneStatusEffect p) (db, results))
    (db, [])

/-- Inner loop body of `processBuffs` for one fetched buff snapshot `b` of
participant `p`: decrement the row and, on expiry, subtract
`value * stackCount` from the buffed stat. -/
def processOneBuff (p : Participant) (acc : Db × List (String × List String)) (b : BuffRow) :
    Db × List (String × List String) :=
  let (db, results) := acc
  let db := db.updateBuff b.id (fun r => { r with remainingTurns := r.remainingTurns - 1 })
  if b.remainingTurns ≤ 1 then
    let db := db.updateParticipant p.id (incAttr b.attr (-(b.value * b.stackCount)))
    (db, modifyResult results p.id (fun msgs =>
      msgs ++ ["Buff de " ++ getAttributeName b.attr ++ " em " ++ getParticipantName p ++
               " expirou"]))
  else (db, results)

/-- `processBuffs` of `effects.service.ts`. -/
def processBuffs (db : Db) (participants : List Participant) :
    Db × List (String × List String) :=
  participants.foldl
    (fun (acc : Db × List (String × List String)) p =>
      let (db, results) := acc
      let results := setResult results p.id []
      let buffs := db.buffs.filter (fun b =>
        b.battleParticipantId = p.id ∧ b.remainingTurns > 0)
      buffs.foldl (processOneBuff p) (db, results))
    (db, [])

/-! ## Turn orchestrator (`turn.service.ts`) -/

/-- `BattleAction` of `types/battle.ts`. -/
structure BattleAction where
  actorId : String
  targetId : String
  skillId : String
  deriving Repr, DecidableEq

/-- `orderParticipantsBySpeed` of `turn.service.ts`: stable sort by current
speed, descending (the `Array.prototype.sort` of modern JS engines is stable). -/
def orderParticipantsBySpeed (participants : List Participant) : List Participant :=
  participants.mergeSort (fun a b => b.currentSpeed ≤ a.currentSpeed)

/-- The per-action validation block of `executeBattleTurn` (`turn.service.ts`
lines 54-97): an `actorId`/`targetId` that is no participant id is rewritten to
the id of the first participant whose `userId` matches it, else the first whose
`enemyId` matches it, and is left unchanged when nothing matches. -/
def validateAction (participants : List Participant) (action : BattleAction) : BattleAction :=
  let action :=
    match participants.find? (fun p => p.id = action.actorId) with
    | some _ => action
    | none =>
      match participants.find? (fun p => p.userId = some action.actorId) with
      | some userActor => { action with actorId := userActor.id }
      | none =>
        match participants.find? (fun p => p.enemyId = some action.actorId) with
        | some enemyActor => { action with actorId := enemyActor.id }
        | none => action
  match participants.find? (fun p => p.id = action.targetId) with
  | some _ => action
  | none =>
    match participants.find? (fun p => p.userId = some action.targetId) with
    | some userTarget => { action with targetId := userTarget.id }
    | none =>
      match participants.find? (fun p => p.enemyId = some action.targetId) with
      | some enemyTarget => { action with targetId := enemyTarget.id }
      | none => action

/-- JS `String.prototype.toLowerCase` (as used on ASCII elemental-type tags),
written as a plain character map so that it reduces definitionally. -/
def jsToLower (s : String) : String := ⟨s.data.map Char.toLower⟩

/-- `getParticipantElementalType` of `turn.service.ts` (lower-cased, with
`"normal"` as the fallback type). -/
def getParticipantElementalType (db : Db) (participant : Participant) : String :=
  let elementalType :=
    if participant.participantType = "user" ∧ participant.userId.isSome then
      match db.users.find? (fun u => some u.id = participant.userId) with
      | some user => if truthyStr user.primaryElementalType then user.primaryElementalType.getD "" else "normal"
      | none => "normal"
    else if participant.participantType = "enemy" ∧ participant.enemyId.isSome then
      match db.enemies.find? (fun e => some e.id = participant.enemyId) with
      | some enemy => if truthyStr enemy.elementalType then enemy.elementalType.getD "" else "normal"
      | none => "normal"
    else "normal"
  jsToLower elementalType

/-- `completeEnemyActions` of `turn.service.ts`.  The enemy-AI service
(`enemy-ai.service.ts`) is kept abstract as the oracle `ai`; `none` models the
service throwing, in which case the source catches the error and simply adds no
action for that enemy. -/
def completeEnemyActions (ai : Db → Participant → Option BattleAction)
    (db : Db) (participants : List Participant) (playerActions : List BattleAction) :
    List BattleAction :=
  let enemies := participants.filter (fun p =>
    p.teamId = "enemy" ∧ p.currentHealth > 0 ∧ p.participantType = "enemy")
  let enemiesWithActions := (playerActions.filter (fun action =>
    match participants.find? (fun p => p.id = action.actorId) with
    | some actor => actor.participantType = "enemy"
    | none => false)).map (fun action => action.actorId)
  enemies.foldl
    (fun completeActions enemy =>
      if enemiesWithActions.contains enemy.id then completeActions
      else
        match ai db enemy with
        | some enemyAction => completeActions ++ [enemyAction]
        | none => completeActions)
    playerActions

/-- `checkTeamStatus` of `turn.service.ts`. -/
def checkTeamStatus (participants : List Participant) : Bool × Bool :=
  let playerTeam := participants.filter (fun p => p.teamId = "player")
  let enemyTeam := participants.filter (fun p => p.teamId = "enemy")
  (playerTeam.all (fun p => p.currentHealth ≤ 0), enemyTeam.all (fun p => p.currentHealth ≤ 0))

/-- `getWinnerTeamRepresentativeId` of `turn.service.ts`. -/
def getWinnerTeamRepresentativeId (participants : List Participant) (winnerTeam : String) :
    Option String :=
  let teamParticipants := participants.filter (fun p =>
    p.teamId = winnerTeam ∧ p.currentHealth > 0)
  match teamParticipants with
  | p :: _ => some p.id
  | [] => (participants.find? (fun p => p.teamId = winnerTeam)).map (fun p => p.id)

/-- `separateActionsByTeam` of `turn.service.ts`. -/
def separateActionsByTeam (actionResults : List (String × BattleActionResult))
    (participants : List Participant) (teamId : String) :
    List (String × BattleActionResult) :=
  let teamParticipantIds := (participants.filter (fun p => p.teamId = teamId)).map (fun p => p.id)
  actionResults.filter (fun kv => teamParticipantIds.contains kv.1)

/-- `BattleTurnResult` of `types/battle.ts`. -/
structure BattleTurnResult where
  battle : Battle
  participants : List Participant
  turnNumber : Int
  playerActions : List (String × BattleActionResult)
  enemyActions : List (String × BattleActionResult)
  actionResults : List (String × BattleActionResult)
  isFinished : Bool
  winnerTeam : Option String
  deriving Repr, DecidableEq

/-- Outcome of the per-action resolution loop of `executeBattleTurn`: either an
early return because one team was wiped out mid-turn, or normal fall-through. -/
inductive LoopResult where
  | early (winnerTeam : String) (db : Db) (rng : Rng) (actionResults : List (String × BattleActionResult))
  | done (db : Db) (rng : Rng) (actionResults : List (String × BattleActionResult))

/-- Tail of the loop body of `executeBattleTurn` (`turn.service.ts` lines
227-384) after the damage roll: apply the damage on a hit, emit the messages,
run the mid-turn victory check with its early return, and apply the rolled
status effects, buffs and debuffs. -/
def resolveDamageOutcome (battleId : String) (p target : Participant)
    (result : BattleActionResult) (db : Db) (rng : Rng)
    (actionResults : List (String × BattleActionResult)) : LoopResult :=
  if result.accuracy then
    let db := db.updateParticipant target.id (fun q =>
      { q with currentHealth := q.currentHealth - result.damage })
    let updatedTarget := db.findParticipant target.id
    let result := { result with messages := result.messages ++
      [getParticipantName p ++ " causou " ++ toString result.damage ++
       " de dano a " ++ getParticipantName target] }
    let targetDefeated : Bool := match updatedTarget with
      | some ut => ut.currentHealth ≤ 0
      | none => false
    let result :=
      if targetDefeated then
        { result with messages := result.messages ++
          [getParticipantName target ++ " foi derrotado!"] }
      else result
    let currentParticipants := db.participants.filter (fun q => q.battleId = battleId)
    let earlyWinner : Option String :=
      if targetDefeated then
        if target.teamId = "enemy" then
          if (currentParticipants.filter (fun q => q.teamId = "enemy")).all
              (fun q => q.currentHealth ≤ 0) then some "player" else none
        else if target.teamId = "player" then
          if (currentParticipants.filter (fun q => q.teamId = "player")).all
              (fun q => q.currentHealth ≤ 0) then some "enemy" else none
        else none
      else none
    match earlyWinner with
    | some winnerTeam =>
      let db := { db with battle := { db.battle with
        isFinished := true,
        currentTurn := db.battle.currentTurn + 1,
        winnerId := getWinnerTeamRepresentativeId currentParticipants winnerTeam } }
      .early winnerTeam db rng (setResult actionResults p.id result)
    | none =>
      let (db, result) := result.statusEffects.foldl
        (fun (acc : Db × BattleActionResult) effect =>
          let (db, res) := acc
          let (db, applied) := applyStatusEffect db target.id effect
          if applied then
            (db, { res with messages := res.messages ++
              [getStatusEffectName effect.kind ++ " aplicado em " ++
               getParticipantName target] })
          else (db, res))
        (db, result)
      let (db, result) := result.buffs.foldl
        (fun (acc : Db × BattleActionResult) buff =>
          let (db, res) := acc
          let (db, applied) := applyBuff db p.id buff
          if applied then
            (db, { res with messages := res.messages ++
              [getAttributeName buff.attr ++ " aumentado em " ++
               toString buff.value] })
          else (db, res))
        (db, result)
      let (db, result) := result.debuffs.foldl
        (fun (acc : Db × BattleActionResult) debuff =>
          let (db, res) := acc
          let (db, applied) := applyBuff db target.id
            { debuff with value := -debuff.value }
          if applied then
            (db, { res with messages := res.messages ++
              [getAttributeName debuff.attr ++ " reduzido em " ++
               toString debuff.value] })
          else (db, res))
        (db, result)
      .done db rng (setResult actionResults p.id result)
  else
    let result :=
      if result.messages = [] then
        { result with messages := [getParticipantName p ++ " errou o ataque"] }
      else result
    .done db rng (setResult actionResults p.id result)


/-- Body of the `for (const participant of orderedParticipants)` loop of
`executeBattleTurn` (`turn.service.ts` lines 113-384) for one participant `p`
from the stale loaded snapshot.  Health/stat reads guarding the action come
from the snapshot; damage and effect writes go to the live store; the
mid-turn victory check re-reads the live store. -/
def processParticipantAction (snapshot : List Participant)
    (completeActions : List BattleAction)
    (statusEffectResults : List (String × StatusTickResult))
    (battleId : String) (p : Participant) (db : Db) (rng : Rng)
    (actionResults : List (String × BattleActionResult)) :
    LoopResult :=
  if p.currentHealth ≤ 0 then .done db rng actionResults
  else
    match completeActions.find? (fun action => action.actorId = p.id) with
    | none => .done db rng actionResults
    | some action =>
      match snapshot.find? (fun q => q.id = action.targetId) with
      | none => .done db rng actionResults
      | some target =>
        if target.currentHealth ≤ 0 then
          .done db rng (setResult actionResults p.id
            { damage := 0, isCritical := false, accuracy := false, statusEffects := [],
              buffs := [], debuffs := [],
              messages := [getParticipantName target ++ " já foi derrotado"] })
        else
          let isStunned := match statusEffectResults.find? (fun kv => kv.1 = p.id) with
            | some kv => kv.2.stunned
            | none => false
          if isStunned then
            .done db rng (setResult actionResults p.id
              { damage := 0, isCritical := false, accuracy := false, statusEffects := [],
                buffs := [], debuffs := [],
                messages := ["Não pode agir devido a efeito de status"] })
          else
            match db.skills.find? (fun s => s.id = action.skillId) with
            | none =>
              .done db rng (setResult actionResults p.id
                { damage := 0, isCritical := false, accuracy := false, statusEffects := [],
                  buffs := [], debuffs := [],
                  messages := ["Habilidade não encontrada"] })
            | some skill =>
              let equippedOk : Bool :=
                if p.participantType = "user" ∧ p.userId.isSome then
                  (db.userSkills.find? (fun us =>
                    some us.userId = p.userId ∧ us.skillId = skill.id ∧ us.equipped)).isSome
                else true
              if ¬equippedOk then
                .done db rng (setResult actionResults p.id
                  { damage := 0, isCritical := false, accuracy := false, statusEffects := [],
                    buffs := [], debuffs := [],
                    messages := ["Esta habilidade não está equipada e não pode ser usada"] })
              else
                let attackerType := getParticipantElementalType db p
                let defenderType := getParticipantElementalType db target
                let (result, rng) := calculateDamage p target skill attackerType defenderType rng
                resolveDamageOutcome battleId p target result db rng actionResults

/-- The full per-action resolution loop, short-circuiting on an early finish. -/
def runActionsLoop (snapshot : List Participant) (completeActions : List BattleAction)
    (statusEffectResults : List (String × StatusTickResult)) (battleId : String) :
    List Participant → Db → Rng → List (String × BattleActionResult) → LoopResult
  | [], db, rng, actionResults => .done db rng actionResults
  | p :: rest, db, rng, actionResults =>
    match processParticipantAction snapshot completeActions statusEffectResults battleId
        p db rng actionResults with
    | .early winnerTeam db rng actionResults => .early winnerTeam db rng actionResults
    | .done db rng actionResults =>
      runActionsLoop snapshot completeActions statusEffectResults battleId
        rest db rng actionResults

/-- Tail of `executeBattleTurn` (`turn.service.ts` lines 386-450): package the
early-finish result, or increment the turn counter, run the end-of-turn team
check and package the normal result. -/
def finishTurn (battleId : String) (lr : LoopResult) :
    Except String (BattleTurnResult × Db × Rng) :=
  match lr with
  | .early winnerTeam db rng actionResults =>
    let finalParticipants := db.participants.filter (fun p => p.battleId = battleId)
    .ok ({ battle := db.battle,
           participants := finalParticipants,
           turnNumber := db.battle.currentTurn,
           playerActions := separateActionsByTeam actionResults finalParticipants "player",
           enemyActions := separateActionsByTeam actionResults finalParticipants "enemy",
           actionResults := actionResults,
           isFinished := true,
           winnerTeam := some winnerTeam }, db, rng)
  | .done db rng actionResults =>
    let db := { db with battle := { db.battle with currentTurn := db.battle.currentTurn + 1 } }
    let updatedParticipants := db.participants.filter (fun p => p.battleId = battleId)
    let (playerDefeated, enemyDefeated) := checkTeamStatus updatedParticipants
    let isFinished := playerDefeated ∨ enemyDefeated
    let winnerTeam : Option String :=
      if playerDefeated ∨ enemyDefeated then
        some (if playerDefeated then "enemy" else "player")
      else none
    let db :=
      if playerDefeated ∨ enemyDefeated then
        { db with battle := { db.battle with
          isFinished := true,
          winnerId := getWinnerTeamRepresentativeId updatedParticipants
            (if playerDefeated then "enemy" else "player") } }
      else db
    .ok ({ battle := db.battle,
           participants := updatedParticipants,
           turnNumber := db.battle.currentTurn,
           playerActions := separateActionsByTeam actionResults updatedParticipants "player",
           enemyActions := separateActionsByTeam actionResults updatedParticipants "enemy",
           actionResults := actionResults,
           isFinished := isFinished,
           winnerTeam := winnerTeam }, db, rng)

/-- `executeBattleTurn` of `turn.service.ts`.  The store is modelled as holding
the one battle being played; a mismatched id is the `'Batalha não encontrada'`
error.  Returns the turn result together with the updated store and the
remaining randomness stream. -/
def executeBattleTurn (ai : Db → Participant → Option BattleAction)
    (db : Db) (battleId : String) (actions : List BattleAction) (rng : Rng) :
    Except String (BattleTurnResult × Db × Rng) :=
  if db.battle.id ≠ battleId then .error "Batalha não encontrada"
  else
    let snapshot := db.participants.filter (fun p => p.battleId = battleId)
    let validatedActions := actions.map (validateAction snapshot)
    let (db, statusEffectResults) := processStatusEffects db snapshot
    let (db, _buffResults) := processBuffs db snapshot
    let completeActions := completeEnemyActions ai db snapshot validatedActions
    let orderedParticipants := orderParticipantsBySpeed snapshot
    finishTurn battleId (runActionsLoop snapshot completeActions statusEffectResults battleId
      orderedParticipants db rng [])

/-! ## Reward / leveling subsystem (`base.repository.ts`,
`battle-rewards.service.ts`) -/

/-- `calculateExperienceForNextLevel` of `base.repository.ts`:
`Math.floor(100 * Math.pow(1.5, currentLevel - 1))`. -/
def calculateExperienceForNextLevel (currentLevel : Int) : Int :=
  ⌊(100 : ℚ) * (3/2 : ℚ) ^ (currentLevel - 1)⌋

/-- `calculateBattleExperience` of `base.repository.ts`:
`Math.floor(20 * averageEnemyLevel * difficultyMultiplier)`. -/
def calculateBattleExperience (enemyLevels : List Int) (difficulty : String) : Int :=
  let averageEnemyLevel : ℚ := ((enemyLevels.foldl (· + ·) 0 : Int) : ℚ) / (enemyLevels.length : ℚ)
  let difficultyMultiplier : ℚ :=
    if difficulty = "easy" then 1
    else if difficulty = "normal" then 5/4
    else if difficulty = "hard" then 3/2
    else 1
  ⌊20 * averageEnemyLevel * difficultyMultiplier⌋

/-- Result record of `checkLevelUp`. -/
structure LevelUpResult where
  newLevel : Int
  leveledUp : Bool
  newAttributePoints : Int
  newExp : Int
  deriving Repr, DecidableEq

/-- The `while (totalExp >= …)` loop of `checkLevelUp`, run on explicit fuel.
Every iteration subtracts `calculateExperienceForNextLevel newLevel`, which is
at least 100 for any level ≥ 1, so `totalExp.toNat + 1` units of fuel are never
exhausted on the store's levels (levels start at 1); at fuel 0 the loop
condition would already be false for such inputs. -/
def checkLevelUpGo : Nat → Int → Int → Int → Bool → LevelUpResult
  | 0, newLevel, totalExp, pts, up =>
    { newLevel := newLevel, leveledUp := up, newAttributePoints := pts, newExp := totalExp }
  | fuel + 1, newLevel, totalExp, pts, up =>
    if totalExp ≥ calculateExperienceForNextLevel newLevel then
      checkLevelUpGo fuel (newLevel + 1) (totalExp - calculateExperienceForNextLevel newLevel)
        (pts + 3) true
    else
      { newLevel := newLevel, leveledUp := up, newAttributePoints := pts, newExp := totalExp }

/-- `checkLevelUp` of `base.repository.ts`. -/
def checkLevelUp (currentLevel currentExp expGained : Int) : LevelUpResult :=
  let totalExp := currentExp + expGained
  checkLevelUpGo (totalExp.toNat + 1) currentLevel totalExp 0 false

/-- `BattleRewards` of `battle-rewards.service.ts`. -/
structure BattleRewards where
  experience : Int
  levelUp : Bool
  attributePointsGained : Int
  deriving Repr, DecidableEq

/-- The included `enemy` relation of a participant. -/
def Db.enemyOf (db : Db) (p : Participant) : Option EnemyRow :=
  p.enemyId.bind (fun eid => db.enemies.find? (fun e => e.id = eid))

/-- `processBattleRewards` of `battle-rewards.service.ts`: reject when already
claimed, when the battle is missing or unfinished, when the user did not take
part, or when the player's team did not win; otherwise compute battle
experience, run the level-up loop, write the user's new level / experience /
attribute points and insert the `BattleReward` ledger row. -/
def processBattleRewards (db : Db) (userId battleId : String) :
    Except String (Db × BattleRewards) :=
  if userId = "" ∨ battleId = "" then .error "Parâmetros inválidos"
  else
    let alreadyRewarded := db.battleRewards.any (fun r =>
      r.userId = userId ∧ r.battleId = battleId)
    if alreadyRewarded then .error "Você já recebeu recompensas por esta batalha"
    else if db.battle.id ≠ battleId then
      .error ("Batalha com ID " ++ battleId ++ " não encontrada")
    else
      let battle := db.battle
      let participants := db.participants.filter (fun p => p.battleId = battleId)
      if ¬battle.isFinished then .error "Batalha não finalizada"
      else
        let playerParticipant := participants.find? (fun p => p.userId = some userId)
        let humanCountOk : Bool :=
          match playerParticipant with
          | some _ => true
          | none =>
            (participants.filter (fun p => p.participantType = "user")).length = 1
        if ¬humanCountOk then .error "Usuário não participou desta batalha"
        else
          let playerTeam : Option String :=
            match playerParticipant with
            | some p => some p.teamId
            | none =>
              (participants.find? (fun p => p.participantType = "user")).map
                (fun p => p.teamId)
          match playerTeam with
          | none => .error "Não foi possível determinar o time do jogador"
          | some playerTeam =>
            let wonResult : Except String Bool :=
              if truthyStr battle.winnerId then
                match participants.find? (fun p => some p.id = battle.winnerId) with
                | none => .error "Dados de batalha inconsistentes: vencedor não encontrado"
                | some winnerParticipant => .ok (winnerParticipant.teamId = playerTeam)
              else
                .ok (participants.all (fun p =>
                  p.teamId = playerTeam ∨ p.currentHealth ≤ 0))
            match wonResult with
            | .error e => .error e
            | .ok playerTeamWon =>
              if ¬playerTeamWon then
                .error "Você não pode receber recompensas por uma batalha que não venceu"
              else
                match db.users.find? (fun u => u.id = userId) with
                | none => .error "Usuário não encontrado"
                | some user =>
                  let enemyLevels :=
                    (participants.filter (fun p =>
                      p.teamId ≠ playerTeam ∧ (db.enemyOf p).isSome)).map (fun p =>
                        match db.enemyOf p with
                        | some enemy =>
                          max 1 ⌊((enemy.physicalAttack + enemy.specialAttack +
                            enemy.physicalDefense + enemy.specialDefense +
                            enemy.speed : Int) : ℚ) / 20⌋
                        | none => 1)
                  let difficulty :=
                    if enemyLevels.length ≤ 1 then "easy"
                    else if enemyLevels.length ≤ 2 then "normal"
                    else "hard"
                  let experienceGained := calculateBattleExperience enemyLevels difficulty
                  let lvl := checkLevelUp user.level user.experience experienceGained
                  let db : Db := { db with users := db.users.map (fun u =>
                    if u.id = userId then
                      { u with level := lvl.newLevel, experience := lvl.newExp,
                               attributePointsToDistribute :=
                                 u.attributePointsToDistribute + lvl.newAttributePoints }
                    else u) }
                  let db : Db := { db with battleRewards := db.battleRewards ++
                    [{ userId := userId, battleId := battleId,
                       experienceGained := experienceGained,
                       leveledUp := lvl.leveledUp,
                       attributePointsGained := lvl.newAttributePoints }] }
                  .ok (db, { experience := experienceGained, levelUp := lvl.leveledUp,
                             attributePointsGained := lvl.newAttributePoints })

/-! ## Controller (`battle.controller.ts`, `processTurnAction`) -/

/-- The HTTP response of `processTurnAction`, reduced to the fields the
controller actually sets. -/
inductive ControllerResponse where
  | success (status : Int) (turnNumber : Int) (turnResult : BattleTurnResult)
      (rewards : Option BattleRewards)
  | failure (status : Int) (message : String)
  deriving Repr, DecidableEq

/-- `findBattleById` of `battle.service.ts`: the battle by id, provided one of
its participants is a user participant owned by `userId`. -/
def findBattleById (db : Db) (battleId userId : String) : Option Battle :=
  if db.battle.id = battleId ∧
      (db.participants.any (fun p =>
        p.battleId = battleId ∧ p.participantType = "user" ∧ p.userId = some userId)) then
    some db.battle
  else none

/-- `processTurnAction` of `battle.controller.ts`: authentication check,
ownership lookup, rejection of finished battles and empty action lists, then
`executeBattleTurn`, then — on a player victory — `processBattleRewards`,
whose failure is swallowed (`rewards` stays `null`). -/
def processTurnAction (ai : Db → Participant → Option BattleAction)
    (userId : Option String) (battleId : String) (actions : List BattleAction)
    (db : Db) (rng : Rng) : Db × Rng × ControllerResponse :=
  match userId with
  | none => (db, rng, .failure 401 "Usuário não autenticado")
  | some userId =>
    match findBattleById db battleId userId with
    | none => (db, rng, .failure 404 "Batalha não encontrada")
    | some battle =>
      if battle.isFinished then
        (db, rng, .failure 400 "Esta batalha já foi finalizada")
      else if actions.length = 0 then
        (db, rng, .failure 400 "Ações de turno inválidas")
      else
        match executeBattleTurn ai db battleId actions rng with
        | .error e => (db, rng, .failure 500 e)
        | .ok (turnResult, db, rng) =>
          let (db, rewards) :=
            if turnResult.isFinished ∧ turnResult.winnerTeam = some "player" then
              match processBattleRewards db userId battleId with
              | .ok (db, rw) => (db, some rw)
              | .error _ => (db, none)
            else (db, none)
          (db, rng, .success 200 (battle.currentTurn + 1) turnResult rewards)

/-! ## Concrete fixtures used by the theorems below -/

/-- A baseline participant used to build concrete test states. -/
def baseParticipant : Participant :=
  { id := "p1", battleId := "b1", userId := none, enemyId := none,
    participantType := "enemy", teamId := "enemy", position := 1, currentHealth := 100,
    currentPhysicalAttack := 12, currentSpecialAttack := 10, currentPhysicalDefense := 10,
    currentSpecialDefense := 10, currentSpeed := 10 }

/-- A baseline unfinished battle. -/
def baseBattle : Battle := { id := "b1", currentTurn := 0, isFinished := false, winnerId := none }

/-- A baseline store holding `baseBattle` and `baseParticipant`. -/
def baseDb : Db :=
  { battle := baseBattle, participants := [baseParticipant], statusEffects := [], buffs := [],
    skills := [], userSkills := [], users := [], enemies := [], battleRewards := [], nextId := 0 }

/-- The stored current health of the participant row `pid`. -/
def healthOf (db : Db) (pid : String) : Option Int :=
  (db.findParticipant pid).map (fun q => q.currentHealth)

/-- Total damage the active damage-over-time effects of participant `pid` deal
in one `processStatusEffects` tick. -/
def dotDamage (db : Db) (pid : String) : Int :=
  ((db.statusEffects.filter (fun e => e.battleParticipantId = pid ∧ e.remainingTurns > 0)).map
    (fun e => if e.kind = "burn" ∨ e.kind = "poison" ∨ e.kind = "bleed" then e.value else 0)).sum

/-- `baseDb` after a 1-turn burn effect is applied to the participant whose
physical attack is 12 (`applyStatusEffect` cuts the attack to 9). -/
def dbBurn : Db :=
  (applyStatusEffect baseDb "p1"
    { kind := "burn", chance := 100, duration := 1, value := 2, applied := true }).1

/-- A participant with 3 health, about to take a 10-damage poison tick. -/
def pPoison : Participant := { baseParticipant with currentHealth := 3 }

/-- A store in which `pPoison` carries an active poison effect of magnitude 10. -/
def dbPoison : Db :=
  { baseDb with
      participants := [pPoison],
      statusEffects :=
        [{ id := 0, battleParticipantId := "p1", kind := "poison", remainingTurns := 2,
           value := 10 }],
      nextId := 1 }

/-- A participant with 50 physical attack, used for the buff-expiry check. -/
def pBuffed : Participant := { baseParticipant with currentPhysicalAttack := 50 }

/-- A store holding only `pBuffed`. -/
def dbBuffBase : Db := { baseDb with participants := [pBuffed] }

/-- A +5 physical-attack buff proposal with the standard 3-turn duration. -/
def buffPlus5 : BuffData := { attr := "physicalAttack", value := 5, duration := 3, applied := true }

/-- `dbBuffBase` after two stacked applications of `buffPlus5` (attack 60,
one buff row with `value = 10`, `stackCount = 2`). -/
def dbBuffStacked : Db := (applyBuff (applyBuff dbBuffBase "p1" buffPlus5).1 "p1" buffPlus5).1

/-- `dbBuffStacked` after three `processBuffs` ticks, crossing the expiry. -/
def dbBuffExpired : Db :=
  (processBuffs (processBuffs (processBuffs dbBuffStacked [pBuffed]).1 [pBuffed]).1 [pBuffed]).1

/-- A plain physical fire skill with 100% accuracy and no side effects. -/
def skillPlain : Skill :=
  { id := "s1", elementalType := "fire", attackType := "physical", baseDamage := 10,
    accuracy := 100, statusEffect := none, statusEffectChance := none,
    statusEffectDuration := none, buffType := none, buffValue := none,
    debuffType := none, debuffValue := none }

/-- An electric skill (earth defenders are immune to it). -/
def skillElectric : Skill := { skillPlain with id := "s2", elementalType := "electric" }

/-- A 50%-accuracy skill, used to exhibit a missed attack. -/
def skillShaky : Skill := { skillPlain with id := "s3", accuracy := 50 }

/-- A fire skill carrying a guaranteed burn effect with duration ceiling 3. -/
def skillBurning : Skill :=
  { skillPlain with
      id := "s4", statusEffect := some "burn", statusEffectChance := some 100,
      statusEffectDuration := some 3 }

/-- A defender with 30 current health. -/
def pDef30 : Participant := { baseParticipant with id := "d30", currentHealth := 30 }

/-- A defender with 300 current health. -/
def pDef300 : Participant := { baseParticipant with id := "d300", currentHealth := 300 }

/-- A player-team user participant owned by user `u1`. -/
def pUser : Participant :=
  { baseParticipant with
      id := "P1", participantType := "user", teamId := "player", userId := some "u1" }

/-- A store whose battle is already finished, owned by user `u1`. -/
def dbFinished : Db :=
  { baseDb with
      battle := { baseBattle with isFinished := true },
      participants := [pUser] }

/-- A buff row already at the 3-stack cap. -/
def ebCap : BuffRow :=
  { id := 0, battleParticipantId := "p1", attr := "physicalAttack", value := 15,
    remainingTurns := 2, stackCount := 3 }

/-- A store in which participant `p1` carries `ebCap`. -/
def dbCap : Db := { baseDb with buffs := [ebCap], nextId := 1 }

/-- The stack-count part of the buff invariant: every buff row holds between
1 and 3 stacks. -/
def buffStacksBounded (db : Db) : Prop :=
  ∀ b ∈ db.buffs, 1 ≤ b.stackCount ∧ b.stackCount ≤ 3

/-- Buff rows have pairwise distinct primary keys, all below the id counter
(what the database's primary-key generation guarantees). -/
def buffIdsFresh (db : Db) : Prop :=
  (db.buffs.map (fun b => b.id)).Nodup ∧ ∀ b ∈ db.buffs, b.id < db.nextId

/-- An enemy row whose five battle stats sum to 60 (rewards level `max 1 ⌊60/20⌋ = 3`). -/
def enC9 : EnemyRow :=
  { id := "e1", elementalType := some "fire", physicalAttack := 12, specialAttack := 12,
    physicalDefense := 12, specialDefense := 12, speed := 12 }

/-- A defeated enemy participant backed by `enC9`. -/
def pEnemyC9 : Participant :=
  { baseParticipant with id := "E1", enemyId := some "e1", currentHealth := 0 }

/-- A level-1 user row with no experience. -/
def uC9 : UserRow :=
  { id := "u1", primaryElementalType := some "fire", level := 1, experience := 0,
    attributePointsToDistribute := 0 }

/-- A finished battle won by user `u1`'s participant `P1`, rewards not yet claimed. -/
def dbC9 : Db :=
  { baseDb with
      battle := { baseBattle with isFinished := true, winnerId := some "P1" },
      participants := [pUser, pEnemyC9],
      users := [uC9],
      enemies := [enC9] }

/-- `dbC9` after the first successful rewards claim: 60 experience credited and
the `(u1, b1)` ledger row inserted. -/
def dbC9after : Db :=
  { dbC9 with
      users := [{ uC9 with experience := 60 }],
      battleRewards := [{ userId := "u1", battleId := "b1", experienceGained := 60,
                          leveledUp := false, attributePointsGained := 0 }] }

/-- The rewards payload of that first claim. -/
def rwC9 : BattleRewards := { experience := 60, levelUp := false, attributePointsGained := 0 }

/-- The fast player attacker of the C8 scenario (owned by user `u1`). -/
def pP1 : Participant :=
  { baseParticipant with
      id := "P1", participantType := "user", teamId := "player", userId := some "u1",
      currentHealth := 50, currentPhysicalAttack := 20, currentSpeed := 10 }

/-- A second, slower player participant whose action the early finish skips. -/
def pP2 : Participant :=
  { baseParticipant with
      id := "P2", participantType := "user", teamId := "player", userId := some "u2",
      currentHealth := 40, currentSpeed := 5 }

/-- A defeated enemy participant. -/
def pE1 : Participant :=
  { baseParticipant with id := "E1", enemyId := some "e1", currentHealth := 0, currentSpeed := 1 }

/-- A second defeated enemy participant. -/
def pE2 : Participant :=
  { baseParticipant with id := "E2", enemyId := some "e2", currentHealth := 0, currentSpeed := 1 }

/-- The last enemy standing, with 5 health. -/
def pE3 : Participant :=
  { baseParticipant with id := "E3", enemyId := some "e3", currentHealth := 5, currentSpeed := 1 }

/-- The C8 store: two player participants against three enemies of which only
`pE3` is still alive. -/
def dbC8 : Db :=
  { battle := baseBattle,
    participants := [pP1, pP2, pE1, pE2, pE3],
    statusEffects := [], buffs := [],
    skills := [skillPlain],
    userSkills := [{ userId := "u1", skillId := "s1", equipped := true },
                   { userId := "u2", skillId := "s1", equipped := true }],
    users := [{ id := "u1", primaryElementalType := some "normal", level := 1, experience := 0,
                attributePointsToDistribute := 0 },
              { id := "u2", primaryElementalType := some "normal", level := 1, experience := 0,
                attributePointsToDistribute := 0 }],
    enemies := [{ id := "e1", elementalType := some "normal", physicalAttack := 10,
                  specialAttack := 10, physicalDefense := 10, specialDefense := 10, speed := 1 },
                { id := "e2", elementalType := some "normal", physicalAttack := 10,
                  specialAttack := 10, physicalDefense := 10, specialDefense := 10, speed := 1 },
                { id := "e3", elementalType := some "normal", physicalAttack := 10,
                  specialAttack := 10, physicalDefense := 10, specialDefense := 10, speed := 1 }],
    battleRewards := [], nextId := 0 }

/-- Both players attack `pE3`; `pP1` resolves first and wipes the enemy team. -/
def actsC8 : List BattleAction :=
  [{ actorId := "P1", targetId := "E3", skillId := "s1" },
   { actorId := "P2", targetId := "E3", skillId := "s1" }]

/-- The C8 turn call (no enemy is alive to act, so the AI oracle is unused). -/
def etbC8 : Except String (BattleTurnResult × Db × Rng) :=
  executeBattleTurn (fun _ _ => none) dbC8 "b1" actsC8 [1/2, 1/2]

/-- The turn result of the C8 call. -/
def trC8 : BattleTurnResult :=
  (etbC8.toOption.map Prod.fst).getD
    { battle := baseBattle, participants := [], turnNumber := 0, playerActions := [],
      enemyActions := [], actionResults := [], isFinished := false, winnerTeam := none }

/-- The store after the C8 call. -/
def dbC8done : Db := (etbC8.toOption.map (fun x => x.2.1)).getD dbC8

/-- The randomness stream left over by the C8 call. -/
def rngC8done : Rng := (etbC8.toOption.map (fun x => x.2.2)).getD []

/-- How a loop outcome relates to the battle row of the store `db` it started
from: a normal fall-through leaves the battle row unchanged, while an early
finish has incremented the turn counter once and set the finished flag. -/
def loopBattleOk (db : Db) : LoopResult → Prop
  | .done d _ _ => d.battle = db.battle
  | .early _ d _ _ =>
      d.battle.currentTurn = db.battle.currentTurn + 1 ∧ d.battle.isFinished = true

/-- The per-actor result map carried by a loop outcome. -/
def loopResults : LoopResult → List (String × BattleActionResult)
  | .early _ _ _ a => a
  | .done _ _ a => a

/-! ## Theorems -/

lemma find?_map_of_id {g : Participant → Participant} (hg : ∀ p, (g p).id = p.id)
    (l : List Participant) (pid : String) :
    (l.map g).find? (fun p => p.id = pid) = (l.find? (fun p => p.id = pid)).map g := by
  induction l with
  | nil => rfl
  | cons x xs ih =>
    by_cases hx : x.id = pid <;>
      simp [List.find?_cons, hx, hg x, ih]

lemma findParticipant_updateParticipant (db : Db) (pid pid' : String)
    (f : Participant → Participant) (hf : ∀ p, (f p).id = p.id) :
    (db.updateParticipant pid f).findParticipant pid' =
      (db.findParticipant pid').map (fun p => if p.id = pid then f p else p) := by
  unfold Db.updateParticipant Db.findParticipant
  exact find?_map_of_id (fun p => by by_cases h : p.id = pid <;> simp [h, hf p]) _ _

lemma findParticipant_updateStatusEffect (db : Db) (eid : Nat) (f) (pid : String) :
    (db.updateStatusEffect eid f).findParticipant pid = db.findParticipant pid := rfl

lemma findParticipant_update_healthSub (db : Db) (pid pid' : String) (v : Int) :
    (db.updateParticipant pid
        (fun q => { q with currentHealth := q.currentHealth - v })).findParticipant pid' =
      (db.findParticipant pid').map
        (fun q => if q.id = pid then { q with currentHealth := q.currentHealth - v } else q) :=
  findParticipant_updateParticipant _ _ _ _ (fun q => rfl)

lemma findParticipant_update_attackAdd (db : Db) (pid pid' : String) (v : Int) :
    (db.updateParticipant pid
        (fun q =>
          { q with currentPhysicalAttack := q.currentPhysicalAttack + v })).findParticipant pid' =
      (db.findParticipant pid').map
        (fun q =>
          if q.id = pid then { q with currentPhysicalAttack := q.currentPhysicalAttack + v }
          else q) :=
  findParticipant_updateParticipant _ _ _ _ (fun q => rfl)

lemma processOneStatusEffect_health (p : Participant) (db : Db)
    (results : List (String × StatusTickResult)) (e : StatusEffectRow) :
    healthOf (processOneStatusEffect p (db, results) e).1 p.id =
      (healthOf db p.id).map (fun h => h -
        (if e.kind = "burn" ∨ e.kind = "poison" ∨ e.kind = "bleed" then e.value else 0)) := by
  unfold processOneStatusEffect
  cases hq : db.findParticipant p.id with
  | none =>
    split_ifs <;>
      simp_all [healthOf, findParticipant_updateStatusEffect, findParticipant_update_healthSub,
        findParticipant_update_attackAdd, hq]
  | some q =>
    have hid : q.id = p.id := by simpa using List.find?_some hq
    split_ifs <;>
      simp_all [healthOf, findParticipant_updateStatusEffect, findParticipant_update_healthSub,
        findParticipant_update_attackAdd, hq, hid] <;>
      split_ifs <;>
      simp_all [healthOf, findParticipant_updateStatusEffect, findParticipant_update_healthSub,
        findParticipant_update_attackAdd, hq, hid]

lemma foldl_processOneStatusEffect_health (p : Participant) (es : List StatusEffectRow) :
    ∀ (db : Db) (results : List (String × StatusTickResult)),
      healthOf (es.foldl (processOneStatusEffect p) (db, results)).1 p.id =
        (healthOf db p.id).map (fun h => h -
          (es.map (fun e => if e.kind = "burn" ∨ e.kind = "poison" ∨ e.kind = "bleed"
            then e.value else 0)).sum) := by
  induction es with
  | nil => intro db results; cases h : healthOf db p.id <;> simp [h]
  | cons e es ih =>
    intro db results
    simp only [List.foldl_cons, List.map_cons, List.sum_cons]
    rcases hstep : processOneStatusEffect p (db, results) e with ⟨db1, r1⟩
    have h1 : healthOf db1 p.id =
        (healthOf db p.id).map (fun h => h -
          (if e.kind = "burn" ∨ e.kind = "poison" ∨ e.kind = "bleed" then e.value else 0)) := by
      have h2 := processOneStatusEffect_health p db results e
      rw [hstep] at h2; exact h2
    rw [ih db1 r1, h1]
    cases healthOf db p.id <;> simp [sub_sub]

/-- C1: the stored health is NOT clamped at 0.  A `processStatusEffects` tick
decrements the target's stored health by the full sum of its active
damage-over-time magnitudes, and the turn loop's damage application decrements
it by the full damage — in both cases with no floor at 0, so stored health can
become negative (defeat is detected by `health ≤ 0` checks instead). -/
theorem C1_health_not_clamped (db : Db) (p : Participant) (dmg : Int) :
    healthOf (processStatusEffects db [p]).1 p.id =
      (healthOf db p.id).map (fun h => h - dotDamage db p.id) ∧
    healthOf (db.updateParticipant p.id
        (fun q => { q with currentHealth := q.currentHealth - dmg })) p.id =
      (healthOf db p.id).map (fun h => h - dmg) := by
  constructor
  · unfold processStatusEffects dotDamage
    simp only [List.foldl_cons, List.foldl_nil]
    exact foldl_processOneStatusEffect_health p _ db _
  · rw [healthOf, findParticipant_update_healthSub]
    cases hq : db.findParticipant p.id with
    | none => simp [healthOf, hq]
    | some q =>
      have hid : q.id = p.id := by simpa using List.find?_some hq
      simp [healthOf, hq, hid]

/-- C1: counterexample to the claimed clamping — a participant stored with 3
health carrying an active 10-damage poison ends the `processStatusEffects`
tick with stored health -7, strictly below 0. -/
theorem C1_counterexample_negative_health :
    healthOf (processStatusEffects dbPoison [pPoison]).1 "p1" = some (-7) ∧ (-7 : Int) < 0 := by
  with_unfolding_all decide

/-- C3: the code contradicts the exact-reversal rule on concrete inputs.
Burn applied at physical attack 12 cuts the stat to 9; the expiry tick
estimates the original as `round(9 / 0.7) = 13` and restores the stat to 13,
not 12.  A buff of +5 applied twice (stack 2, accumulated row value 10) adds
10 to a 50-attack participant, but its expiry subtracts
`value × stackCount = 10 × 2 = 20`, leaving the stat at 40, not 50. -/
theorem C3_tick_reversal_bug :
    (baseParticipant.currentPhysicalAttack = 12 ∧
      (dbBurn.findParticipant "p1").map (fun p => p.currentPhysicalAttack) = some 9 ∧
      ((processStatusEffects dbBurn [baseParticipant]).1.findParticipant "p1").map
        (fun p => p.currentPhysicalAttack) = some 13) ∧
    (pBuffed.currentPhysicalAttack = 50 ∧
      (dbBuffStacked.findParticipant "p1").map (fun p => p.currentPhysicalAttack) = some 60 ∧
      (dbBuffExpired.findParticipant "p1").map (fun p => p.currentPhysicalAttack) = some 40) := by
  with_unfolding_all decide

/-- C4: the elemental advantage lookup, characterised rule by rule exactly as
the source evaluates it: (1) identical argument types give 1/2; (2) otherwise
a defender immunity gives 0; (3) otherwise an `advantageTable` hit gives 3/2;
(4) otherwise a `disadvantageTable` hit — the source's own table, which is NOT
the transpose of the advantage table — gives 1/2; (5) otherwise 1.  The result
always lies in {0, 1/2, 1, 3/2} and `advantage(A, A) = 1/2` for every type. -/
theorem C4_advantage_rules (a d : String) :
    (calculateElementalAdvantage a d = 0 ∨ calculateElementalAdvantage a d = 1/2 ∨
      calculateElementalAdvantage a d = 1 ∨ calculateElementalAdvantage a d = 3/2) ∧
    calculateElementalAdvantage a a = 1/2 ∧
    (a = d → calculateElementalAdvantage a d = 1/2) ∧
    (a ≠ d → (immunities d).contains a = true → calculateElementalAdvantage a d = 0) ∧
    (a ≠ d → (immunities d).contains a = false → (advantageTable a).contains d = true →
      calculateElementalAdvantage a d = 3/2) ∧
    (a ≠ d → (immunities d).contains a = false → (advantageTable a).contains d = false →
      (disadvantageTable a).contains d = true → calculateElementalAdvantage a d = 1/2) ∧
    (a ≠ d → (immunities d).contains a = false → (advantageTable a).contains d = false →
      (disadvantageTable a).contains d = false → calculateElementalAdvantage a d = 1) := by
  unfold calculateElementalAdvantage
  refine ⟨?_, ?_, ?_, ?_, ?_, ?_, ?_⟩ <;> intros <;> split_ifs <;> simp_all

/-- C4: counterexample to the claim's rule (4).  For attacker `earth` against
defender `ice` none of the claim's rules (1)-(4) applies — in particular `ice`
is not listed as advantaged against `earth` — so the claim predicts 1.0, yet
the source returns 0.5 because its separate disadvantage table lists `ice`
against `earth`. -/
theorem C4_counterexample_not_transpose :
    calculateElementalAdvantage "earth" "ice" = 1/2 ∧
    ("earth" : String) ≠ "ice" ∧
    (immunities "ice").contains "earth" = false ∧
    (advantageTable "earth").contains "ice" = false ∧
    (advantageTable "ice").contains "earth" = false := by
  refine ⟨rfl, by decide, by decide, by decide, by decide⟩

/-- C4: witness — the rules of `C4_advantage_rules` applied at concrete types
(immunity of `earth` against `electric`; advantage of `fire` over `nature`). -/
theorem C4_witness :
    calculateElementalAdvantage "electric" "earth" = 0 ∧
    calculateElementalAdvantage "fire" "nature" = 3/2 :=
  ⟨(C4_advantage_rules "electric" "earth").2.2.2.1 (by decide) (by decide),
   (C4_advantage_rules "fire" "nature").2.2.2.2.1 (by decide) (by decide) (by decide)⟩

lemma calculateDamage_spec (attacker defender : Participant) (skill : Skill)
    (atype dtype : String) (rng : Rng) :
    ((calculateDamage attacker defender skill atype dtype rng).1.accuracy = false ∧
      (calculateDamage attacker defender skill atype dtype rng).1.damage = 0 ∧
      (calculateDamage attacker defender skill atype dtype rng).1.statusEffects = []) ∨
    ((calculateDamage attacker defender skill atype dtype rng).1.accuracy = true ∧
      (∃ c v, (calculateDamage attacker defender skill atype dtype rng).1.damage =
        damageRoll attacker defender skill atype dtype c v) ∧
      ((calculateDamage attacker defender skill atype dtype rng).1.statusEffects = [] ∨
        ∃ sr dr, (calculateDamage attacker defender skill atype dtype rng).1.statusEffects =
          [proposedStatusEffect defender skill
            (calculateDamage attacker defender skill atype dtype rng).1.damage sr dr])) := by
  unfold calculateDamage
  by_cases hacc : skill.accuracy < 100 <;>
    simp only [hacc, if_true, if_false, ite_true, ite_false]
  case pos =>
    rcases hr : rng.next with ⟨r0, rng0⟩
    simp only []
    by_cases hmiss : r0 * 100 > (skill.accuracy : ℚ) <;>
      simp only [hmiss, if_true, if_false, ite_true, ite_false, decide_eq_true_eq]
    case pos => left; simp
    case neg =>
      right
      rcases hc : rng0.next with ⟨c0, rng1⟩
      rcases hv : rng1.next with ⟨v0, rng2⟩
      by_cases hse : truthyStr skill.statusEffect ∧ truthyInt skill.statusEffectChance ∧
          truthyInt skill.statusEffectDuration <;>
        simp only [hse, if_true, if_false, ite_true, ite_false]
      case pos =>
        rcases hs : rng2.next with ⟨s0, rng3⟩
        rcases hd : rng3.next with ⟨d0, rng4⟩
        by_cases hb : truthyStr skill.buffType ∧ truthyInt skill.buffValue <;>
          by_cases hdb : truthyStr skill.debuffType ∧ truthyInt skill.debuffValue <;>
          simp [hb, hdb] <;>
          exact ⟨⟨c0, v0, rfl⟩, Or.inr ⟨s0, d0, rfl⟩⟩
      case neg =>
        by_cases hb : truthyStr skill.buffType ∧ truthyInt skill.buffValue <;>
          by_cases hdb : truthyStr skill.debuffType ∧ truthyInt skill.debuffValue <;>
          simp [hb, hdb] <;>
          exact ⟨⟨c0, v0, rfl⟩, Or.inl rfl⟩
  case neg =>
    right
    rcases hc : rng.next with ⟨c0, rng1⟩
    rcases hv : rng1.next with ⟨v0, rng2⟩
    by_cases hse : truthyStr skill.statusEffect ∧ truthyInt skill.statusEffectChance ∧
        truthyInt skill.statusEffectDuration <;>
      simp only [hse, if_true, if_false, ite_true, ite_false]
    case pos =>
      rcases hs : rng2.next with ⟨s0, rng3⟩
      rcases hd : rng3.next with ⟨d0, rng4⟩
      by_cases hb : truthyStr skill.buffType ∧ truthyInt skill.buffValue <;>
        by_cases hdb : truthyStr skill.debuffType ∧ truthyInt skill.debuffValue <;>
        simp [hb, hdb] <;>
        exact ⟨⟨c0, v0, rfl⟩, Or.inr ⟨s0, d0, rfl⟩⟩
    case neg =>
      by_cases hb : truthyStr skill.buffType ∧ truthyInt skill.buffValue <;>
        by_cases hdb : truthyStr skill.debuffType ∧ truthyInt skill.debuffValue <;>
        simp [hb, hdb] <;>
        exact ⟨⟨c0, v0, rfl⟩, Or.inl rfl⟩

lemma damageRoll_immune (attacker defender : Participant) (skill : Skill)
    (atype dtype : String) (c v : ℚ)
    (h : calculateElementalAdvantage skill.elementalType dtype = 0) :
    damageRoll attacker defender skill atype dtype c v = 0 := by
  unfold damageRoll
  simp [h]

lemma damageRoll_ge_one (attacker defender : Participant) (skill : Skill)
    (atype dtype : String) (c v : ℚ)
    (h : calculateElementalAdvantage skill.elementalType dtype ≠ 0) :
    1 ≤ damageRoll attacker defender skill atype dtype c v := by
  unfold damageRoll
  simp [h]

/-- C5 (amended): if the defender is immune to the skill's type
(`typeAdvantage = 0`) the returned damage is exactly 0 regardless of the
critical and variance rolls; in every other case in which the accuracy roll
passes, the returned damage is at least 1.  (A missed attack also returns
damage 0, which the original claim did not except.) -/
theorem C5_damage_bounds (attacker defender : Participant) (skill : Skill)
    (atype dtype : String) (rng : Rng) :
    (calculateElementalAdvantage skill.elementalType dtype = 0 →
      (calculateDamage attacker defender skill atype dtype rng).1.damage = 0) ∧
    ((calculateDamage attacker defender skill atype dtype rng).1.accuracy = true →
      calculateElementalAdvantage skill.elementalType dtype ≠ 0 →
      1 ≤ (calculateDamage attacker defender skill atype dtype rng).1.damage) := by
  rcases calculateDamage_spec attacker defender skill atype dtype rng with
    ⟨hacc, hdam, _⟩ | ⟨hacc, ⟨c, v, hdam⟩, _⟩
  · refine ⟨fun _ => hdam, fun h => ?_⟩
    rw [hacc] at h
    exact absurd h (by simp)
  · exact ⟨fun h => by rw [hdam]; exact damageRoll_immune _ _ _ _ _ _ _ h,
           fun _ h => by rw [hdam]; exact damageRoll_ge_one _ _ _ _ _ _ _ h⟩

/-- C5: counterexample to the claim as stated — a 50%-accuracy attack whose
accuracy roll fails returns damage 0 even though the type multiplier is 1
(not an immunity), so "in every other case the damage is at least 1" is false
for missed invocations. -/
theorem C5_counterexample_missed_attack :
    (calculateDamage baseParticipant baseParticipant skillShaky "normal" "normal"
      [6/10, 1/2, 1/2]).1.damage = 0 ∧
    (calculateDamage baseParticipant baseParticipant skillShaky "normal" "normal"
      [6/10, 1/2, 1/2]).1.accuracy = false ∧
    calculateElementalAdvantage skillShaky.elementalType "normal" = 1 := by
  with_unfolding_all decide

/-- C5: witness — `C5_damage_bounds` applied to an electric attack on an earth
defender (immune, damage 0) and to a plain always-hit fire attack (damage ≥ 1). -/
theorem C5_witness :
    (calculateDamage baseParticipant baseParticipant skillElectric "normal" "earth"
      [1/2, 1/2]).1.damage = 0 ∧
    1 ≤ (calculateDamage baseParticipant baseParticipant skillPlain "normal" "normal"
      [1/2, 1/2]).1.damage :=
  ⟨(C5_damage_bounds baseParticipant baseParticipant skillElectric "normal" "earth"
      [1/2, 1/2]).1 rfl,
   (C5_damage_bounds baseParticipant baseParticipant skillPlain "normal" "normal"
      [1/2, 1/2]).2 (by with_unfolding_all decide) (by with_unfolding_all decide)⟩

/-- C6 (amended): the proposed status effect's magnitude in the live damage
calculator is health-based for burn and poison — `ceil(defenderHealth/15)` and
`ceil(defenderHealth/10)` — and damage-based only for bleed
(`max(7, floor(damage × 0.18))`); the duration is drawn uniformly from the
integers 1 to the skill's declared ceiling; and every effect the calculator
proposes has exactly this shape. -/
theorem C6_status_effect_formulas (attacker defender : Participant) (skill : Skill)
    (damage : Int) (statusRoll durRoll : ℚ) (atype dtype : String) (rng : Rng)
    (h0 : 0 ≤ durRoll) (h1 : durRoll < 1) (hd : 1 ≤ skill.statusEffectDuration.getD 0) :
    (skill.statusEffect = some "burn" →
      (proposedStatusEffect defender skill damage statusRoll durRoll).value =
        ⌈(defender.currentHealth : ℚ) / 15⌉) ∧
    (skill.statusEffect = some "poison" →
      (proposedStatusEffect defender skill damage statusRoll durRoll).value =
        ⌈(defender.currentHealth : ℚ) / 10⌉) ∧
    (skill.statusEffect = some "bleed" →
      (proposedStatusEffect defender skill damage statusRoll durRoll).value =
        max 7 ⌊(damage : ℚ) * (18/100)⌋) ∧
    (1 ≤ (proposedStatusEffect defender skill damage statusRoll durRoll).duration ∧
      (proposedStatusEffect defender skill damage statusRoll durRoll).duration ≤
        skill.statusEffectDuration.getD 0) ∧
    (∀ e ∈ (calculateDamage attacker defender skill atype dtype rng).1.statusEffects,
      ∃ sr dr, e = proposedStatusEffect defender skill
        (calculateDamage attacker defender skill atype dtype rng).1.damage sr dr) := by
  refine ⟨?_, ?_, ?_, ?_, ?_⟩
  · intro h; unfold proposedStatusEffect; simp [h]
  · intro h; unfold proposedStatusEffect; simp [h]
  · intro h; unfold proposedStatusEffect; simp [h]
  · unfold proposedStatusEffect
    simp only []
    constructor
    · have : (0 : Int) ≤ ⌊durRoll * (skill.statusEffectDuration.getD 0 : ℚ)⌋ := by
        apply Int.le_floor.2
        push_cast
        positivity
      omega
    · have hlt : ⌊durRoll * (skill.statusEffectDuration.getD 0 : ℚ)⌋ <
          skill.statusEffectDuration.getD 0 := by
        apply Int.floor_lt.2
        calc durRoll * (skill.statusEffectDuration.getD 0 : ℚ)
            < 1 * (skill.statusEffectDuration.getD 0 : ℚ) := by
              apply mul_lt_mul_of_pos_right h1
              exact_mod_cast lt_of_lt_of_le Int.zero_lt_one hd
          _ = _ := one_mul _
      omega
  · intro e he
    rcases calculateDamage_spec attacker defender skill atype dtype rng with
      ⟨_, _, hse⟩ | ⟨_, _, hse | ⟨sr, dr, hse⟩⟩
    · rw [hse] at he; cases he
    · rw [hse] at he; cases he
    · rw [hse] at he
      rcases List.mem_singleton.1 he with rfl
      exact ⟨sr, dr, rfl⟩

/-- C6: counterexample to the claimed damage-based burn/poison formulas — two
burn attacks dealing identical damage against defenders with 30 and 300 health
propose magnitudes 2 and 20 (`ceil(health/15)`), so the magnitude is not a
function of the damage (≈ damage × 0.066) as claimed. -/
theorem C6_counterexample_burn_is_health_based :
    (calculateDamage baseParticipant pDef30 skillBurning "normal" "normal"
        [1/2, 1/2, 0, 0]).1.damage =
      (calculateDamage baseParticipant pDef300 skillBurning "normal" "normal"
        [1/2, 1/2, 0, 0]).1.damage ∧
    ((calculateDamage baseParticipant pDef30 skillBurning "normal" "normal"
        [1/2, 1/2, 0, 0]).1.statusEffects.map (fun e => e.value)) = [2] ∧
    ((calculateDamage baseParticipant pDef300 skillBurning "normal" "normal"
        [1/2, 1/2, 0, 0]).1.statusEffects.map (fun e => e.value)) = [20] := by
  with_unfolding_all decide

/-- C6: witness — `C6_status_effect_formulas` applied at the burn fixture with
duration roll 1/2 against a ceiling of 3. -/
theorem C6_witness :
    (proposedStatusEffect pDef30 skillBurning 18 0 (1/2)).value = ⌈(30 : ℚ) / 15⌉ ∧
    (1 ≤ (proposedStatusEffect pDef30 skillBurning 18 0 (1/2)).duration ∧
      (proposedStatusEffect pDef30 skillBurning 18 0 (1/2)).duration ≤ 3) :=
  ⟨(C6_status_effect_formulas baseParticipant pDef30 skillBurning 18 0 (1/2) "normal" "normal"
      [] (by norm_num) (by norm_num) (by norm_num [skillBurning, skillPlain])).1 rfl,
   (C6_status_effect_formulas baseParticipant pDef30 skillBurning 18 0 (1/2) "normal" "normal"
      [] (by norm_num) (by norm_num) (by norm_num [skillBurning, skillPlain])).2.2.2.1⟩

lemma buffs_updateParticipant (db : Db) (pid : String) (f) :
    (db.updateParticipant pid f).buffs = db.buffs := rfl

lemma nextId_updateParticipant (db : Db) (pid : String) (f) :
    (db.updateParticipant pid f).nextId = db.nextId := rfl

lemma buffs_updateBuff (db : Db) (bid : Nat) (f) :
    (db.updateBuff bid f).buffs = db.buffs.map (fun b => if b.id = bid then f b else b) := rfl

lemma nextId_updateBuff (db : Db) (bid : Nat) (f) :
    (db.updateBuff bid f).nextId = db.nextId := rfl

/-- C2: a call on an already-finished battle is rejected by the controller with
a 400 error before the engine runs — the store and the randomness stream are
returned untouched, so the turn counter and all participant state are
unchanged. -/
theorem C2_finished_battle_rejected (ai : Db → Participant → Option BattleAction)
    (u battleId : String) (actions : List BattleAction) (db : Db) (rng : Rng)
    (hsome : (findBattleById db battleId u).isSome = true)
    (hfin : db.battle.isFinished = true) :
    processTurnAction ai (some u) battleId actions db rng =
      (db, rng, ControllerResponse.failure 400 "Esta batalha já foi finalizada") := by
  unfold processTurnAction
  simp only []
  cases hfound : findBattleById db battleId u with
  | none =>
    rw [hfound] at hsome
    exact absurd hsome (by simp)
  | some b =>
    have hb : b = db.battle := by
      unfold findBattleById at hfound
      split_ifs at hfound with h
      exact (Option.some.inj hfound).symm
    subst hb
    simp [hfin]

/-- C2: witness — the rejection applied to a concrete finished battle. -/
theorem C2_witness :
    processTurnAction (fun _ _ => none) (some "u1") "b1" [] dbFinished [] =
      (dbFinished, [], ControllerResponse.failure 400 "Esta batalha já foi finalizada") :=
  C2_finished_battle_rejected (fun _ _ => none) "u1" "b1" [] dbFinished []
    (by with_unfolding_all decide) (by with_unfolding_all decide)

lemma applyBuff_preserves (db : Db) (pid : String) (buff : BuffData)
    (hbound : buffStacksBounded db) (hfresh : buffIdsFresh db) :
    buffStacksBounded (applyBuff db pid buff).1 ∧ buffIdsFresh (applyBuff db pid buff).1 := by
  unfold applyBuff
  by_cases hap : buff.applied
  case neg => simp [hap]; exact ⟨hbound, hfresh⟩
  case pos =>
    simp only [hap, not_true, if_false, ite_false, ite_true, Bool.not_eq_true]
    cases hfind : db.buffs.find? (fun b =>
        b.battleParticipantId = pid ∧ b.attr = buff.attr ∧ b.remainingTurns > 0) with
    | none =>
      refine ⟨?_, ?_, ?_⟩
      · intro b hb
        rw [buffs_updateParticipant] at hb
        simp only [] at hb
        rcases List.mem_append.1 hb with h | h
        · exact hbound b h
        · rcases List.mem_singleton.1 h with rfl
          exact ⟨le_refl 1, by norm_num⟩
      · rw [buffs_updateParticipant]
        simp only []
        rw [List.map_append]
        apply List.Nodup.append hfresh.1 (by simp)
        intro x hx hx2
        simp only [List.map_cons, List.map_nil, List.mem_singleton] at hx2
        subst hx2
        rcases List.mem_map.1 hx with ⟨b, hb, hbid⟩
        exact absurd hbid (Nat.ne_of_lt (hfresh.2 b hb))
      · intro b hb
        rw [buffs_updateParticipant] at hb
        rw [nextId_updateParticipant]
        simp only [] at hb ⊢
        rcases List.mem_append.1 hb with h | h
        · exact Nat.lt_succ_of_lt (hfresh.2 b h)
        · rcases List.mem_singleton.1 h with rfl
          exact Nat.lt_succ_self _
    | some eb =>
      have hebmem : eb ∈ db.buffs := List.mem_of_find?_eq_some hfind
      have hebb := hbound eb hebmem
      by_cases hstack : eb.stackCount < 3
      case pos =>
        simp only [hstack, if_true, ite_true]
        refine ⟨?_, ?_, ?_⟩
        · intro b hb
          rw [buffs_updateParticipant, buffs_updateBuff] at hb
          rcases List.mem_map.1 hb with ⟨b0, hb0, rfl⟩
          by_cases hid : b0.id = eb.id
          · have hbeq : b0 = eb := List.inj_on_of_nodup_map hfresh.1 hb0 hebmem hid
            subst hbeq
            simp only [hid, if_true, ite_true]
            constructor <;> omega
          · simp only [hid, if_false, ite_false]
            exact hbound b0 hb0
        · rw [buffs_updateParticipant, buffs_updateBuff]
          have hmap : (db.buffs.map (fun b => if b.id = eb.id then
              { b with
                  stackCount := b.stackCount + 1, remainingTurns := buff.duration,
                  value := eb.value + buff.value }
              else b)).map (fun b => b.id) = db.buffs.map (fun b => b.id) := by
            rw [List.map_map]
            apply List.map_congr_left
            intro b hb
            by_cases hid : b.id = eb.id <;> simp [hid]
          rw [hmap]
          exact hfresh.1
        · intro b hb
          rw [buffs_updateParticipant, buffs_updateBuff] at hb
          rw [nextId_updateParticipant, nextId_updateBuff]
          rcases List.mem_map.1 hb with ⟨b0, hb0, rfl⟩
          have h2 := hfresh.2 b0 hb0
          by_cases hid : b0.id = eb.id <;>
            simp only [hid, if_true, if_false, ite_true, ite_false] <;> omega
      case neg =>
        simp only [hstack, if_false, ite_false]
        exact ⟨hbound, hfresh⟩

lemma applyBuffs_fold_preserves (calls : List (String × BuffData)) :
    ∀ db : Db, buffStacksBounded db → buffIdsFresh db →
      buffStacksBounded (calls.foldl (fun d c => (applyBuff d c.1 c.2).1) db) := by
  induction calls with
  | nil => intro db h _; exact h
  | cons c cs ih =>
    intro db h1 h2
    have h3 := applyBuff_preserves db c.1 c.2 h1 h2
    exact ih _ h3.1 h3.2

/-- C7: starting from a store whose buff rows hold 1-3 stacks (with distinct
fresh primary keys), every sequence of `applyBuff` calls keeps every stack
count in [1,3]; an application onto an active same-attribute buff at the cap
of 3 changes nothing at all yet still returns success; an application below
the cap returns success, increments that row's stack count, resets its
remaining turns to the new duration, accumulates its stored value, and adds
the increment to the participant's attribute. -/
theorem C7_buff_stacking (db : Db) (pid : String) (buff : BuffData)
    (hbound : buffStacksBounded db) (hfresh : buffIdsFresh db) :
    (∀ calls : List (String × BuffData),
      buffStacksBounded (calls.foldl (fun d c => (applyBuff d c.1 c.2).1) db)) ∧
    (∀ eb, db.buffs.find? (fun b => b.battleParticipantId = pid ∧ b.attr = buff.attr ∧
        b.remainingTurns > 0) = some eb →
      buff.applied = true →
      (eb.stackCount = 3 → applyBuff db pid buff = (db, true)) ∧
      (eb.stackCount < 3 →
        (applyBuff db pid buff).2 = true ∧
        (applyBuff db pid buff).1.buffs = db.buffs.map (fun b =>
          if b.id = eb.id then
            { b with
                stackCount := b.stackCount + 1, remainingTurns := buff.duration,
                value := eb.value + buff.value }
          else b) ∧
        (applyBuff db pid buff).1.participants = db.participants.map (fun p =>
          if p.id = pid then incAttr buff.attr buff.value p else p))) := by
  refine ⟨fun calls => applyBuffs_fold_preserves calls db hbound hfresh, ?_⟩
  intro eb hfind hap
  constructor
  · intro hcap
    unfold applyBuff
    rw [hfind]
    simp [hap, hcap]
  · intro hlt
    unfold applyBuff
    rw [hfind]
    simp [hap, hlt, Db.updateBuff, Db.updateParticipant]

/-- C7: witness — a 4th application onto the capped row `ebCap` is a complete
no-op that still reports success, and a further call keeps all stacks in
bounds. -/
theorem C7_witness :
    applyBuff dbCap "p1" buffPlus5 = (dbCap, true) ∧
    buffStacksBounded ([("p1", buffPlus5)].foldl (fun d c => (applyBuff d c.1 c.2).1) dbCap) :=
  ⟨((C7_buff_stacking dbCap "p1" buffPlus5
      (by unfold buffStacksBounded; with_unfolding_all decide)
      (by unfold buffIdsFresh; with_unfolding_all decide)).2 ebCap
      (by with_unfolding_all decide) rfl).1 rfl,
   (C7_buff_stacking dbCap "p1" buffPlus5
      (by unfold buffStacksBounded; with_unfolding_all decide)
      (by unfold buffIdsFresh; with_unfolding_all decide)).1 [("p1", buffPlus5)]⟩

/-- A store whose ledger already holds an `(u, b)` reward row rejects a claim. -/
lemma processBattleRewards_already (db1 : Db) (u b : String)
    (hne : ¬(u = "" ∨ b = ""))
    (har : db1.battleRewards.any (fun r => r.userId = u ∧ r.battleId = b) = true) :
    processBattleRewards db1 u b = .error "Você já recebeu recompensas por esta batalha" := by
  unfold processBattleRewards
  rw [if_neg hne]
  simp only []
  rw [if_pos har]

/-- The success branch of `processBattleRewards`, packaged: from the exact
shapes of the updated store and payload, all three C9 conclusions follow. -/
lemma C9_ok_case (db : Db) (u b : String) (db1 : Db) (rw1 : BattleRewards)
    (user : UserRow) (E : Int)
    (hne : ¬(u = "" ∨ b = ""))
    (hu : List.find? (fun v => v.id = u) db.users = some user)
    (hdb1 : db1 = { db with
       users := db.users.map (fun v => if v.id = u then
         { v with
             level := (checkLevelUp user.level user.experience E).newLevel,
             experience := (checkLevelUp user.level user.experience E).newExp,
             attributePointsToDistribute := v.attributePointsToDistribute +
               (checkLevelUp user.level user.experience E).newAttributePoints }
         else v),
       battleRewards := db.battleRewards ++
         [{ userId := u, battleId := b, experienceGained := E,
            leveledUp := (checkLevelUp user.level user.experience E).leveledUp,
            attributePointsGained :=
              (checkLevelUp user.level user.experience E).newAttributePoints }] })
    (hrw : rw1 = { experience := E,
                   levelUp := (checkLevelUp user.level user.experience E).leveledUp,
                   attributePointsGained :=
                     (checkLevelUp user.level user.experience E).newAttributePoints }) :
    processBattleRewards db1 u b = .error "Você já recebeu recompensas por esta batalha" ∧
    db1.battleRewards.any (fun r => r.userId = u ∧ r.battleId = b) = true ∧
    (∃ us, db.users.find? (fun v => v.id = u) = some us ∧
      db1.users = db.users.map (fun v =>
        if v.id = u then
          { v with
              level := (checkLevelUp us.level us.experience rw1.experience).newLevel,
              experience := (checkLevelUp us.level us.experience rw1.experience).newExp,
              attributePointsToDistribute := v.attributePointsToDistribute +
                (checkLevelUp us.level us.experience rw1.experience).newAttributePoints }
        else v)) := by
  subst hdb1
  subst hrw
  refine ⟨?_, ?_, user, hu, ?_⟩
  · apply processBattleRewards_already _ _ _ hne
    simp [List.any_append]
  · simp [List.any_append]
  · rfl

/-- C9: claiming rewards twice for the same (user, battle) pair succeeds at most
once.  Whenever `processBattleRewards` succeeds, the produced store carries a
`BattleReward` ledger row for the pair, a repeated call on that store is
rejected with the already-claimed conflict error, and the user row was updated
exactly once, by the `checkLevelUp` result on the experience just gained. -/
theorem C9_rewards_claimed_once (db : Db) (u b : String) (db1 : Db) (rw1 : BattleRewards)
    (h : processBattleRewards db u b = .ok (db1, rw1)) :
    processBattleRewards db1 u b = .error "Você já recebeu recompensas por esta batalha" ∧
    db1.battleRewards.any (fun r => r.userId = u ∧ r.battleId = b) = true ∧
    (∃ us, db.users.find? (fun v => v.id = u) = some us ∧
      db1.users = db.users.map (fun v =>
        if v.id = u then
          { v with
              level := (checkLevelUp us.level us.experience rw1.experience).newLevel,
              experience := (checkLevelUp us.level us.experience rw1.experience).newExp,
              attributePointsToDistribute := v.attributePointsToDistribute +
                (checkLevelUp us.level us.experience rw1.experience).newAttributePoints }
        else v)) := by
  unfold processBattleRewards at h
  simp only [] at h
  by_cases h1 : u = "" ∨ b = ""
  · rw [if_pos h1] at h; cases h
  rw [if_neg h1] at h
  by_cases har : db.battleRewards.any (fun r => r.userId = u ∧ r.battleId = b) = true
  · rw [if_pos har] at h; cases h
  rw [if_neg har] at h
  by_cases hid : db.battle.id ≠ b
  · rw [if_pos hid] at h; cases h
  rw [if_neg hid] at h
  by_cases hfin : ¬db.battle.isFinished = true
  · rw [if_pos hfin] at h; cases h
  rw [if_neg hfin] at h
  cases hpp : List.find? (fun p => p.userId = some u)
      (List.filter (fun p => p.battleId = b) db.participants) with
  | some pp =>
    rw [hpp] at h
    simp only [] at h
    rw [if_neg (by simp)] at h
    by_cases htw : truthyStr db.battle.winnerId = true
    · rw [if_pos htw] at h
      cases hwp : List.find? (fun p => some p.id = db.battle.winnerId)
          (List.filter (fun p => p.battleId = b) db.participants) with
      | none => rw [hwp] at h; cases h
      | some wp =>
        rw [hwp] at h
        simp only [] at h
        by_cases hwon : ¬(decide (wp.teamId = pp.teamId) = true)
        · rw [if_pos hwon] at h; cases h
        · rw [if_neg hwon] at h
          obtain ⟨user, hu⟩ : ∃ user,
              List.find? (fun v => v.id = u) db.users = some user := by
            cases hu0 : List.find? (fun v => v.id = u) db.users with
            | none => rw [hu0] at h; cases h
            | some x => exact ⟨x, rfl⟩
          rw [hu] at h
          simp only [Except.ok.injEq, Prod.mk.injEq] at h
          exact C9_ok_case db u b db1 rw1 user _ h1 hu h.1.symm h.2.symm
    · rw [if_neg htw] at h
      simp only [] at h
      by_cases hall : ¬(((List.filter (fun p => p.battleId = b) db.participants).all
          (fun p => p.teamId = pp.teamId ∨ p.currentHealth ≤ 0)) = true)
      · rw [if_pos hall] at h; cases h
      · rw [if_neg hall] at h
        obtain ⟨user, hu⟩ : ∃ user,
            List.find? (fun v => v.id = u) db.users = some user := by
          cases hu0 : List.find? (fun v => v.id = u) db.users with
          | none => rw [hu0] at h; cases h
          | some x => exact ⟨x, rfl⟩
        rw [hu] at h
        simp only [Except.ok.injEq, Prod.mk.injEq] at h
        exact C9_ok_case db u b db1 rw1 user _ h1 hu h.1.symm h.2.symm
  | none =>
    rw [hpp] at h
    simp only [] at h
    by_cases hhc : ¬(decide ((List.filter (fun p => p.participantType = "user")
        (List.filter (fun p => p.battleId = b) db.participants)).length = 1) = true)
    · rw [if_pos hhc] at h; cases h
    · rw [if_neg hhc] at h
      cases hpt : List.find? (fun p => p.participantType = "user")
          (List.filter (fun p => p.battleId = b) db.participants) with
      | none => rw [hpt] at h; simp only [Option.map] at h; cases h
      | some pu =>
        rw [hpt] at h
        simp only [Option.map] at h
        by_cases htw : truthyStr db.battle.winnerId = true
        · rw [if_pos htw] at h
          cases hwp : List.find? (fun p => some p.id = db.battle.winnerId)
              (List.filter (fun p => p.battleId = b) db.participants) with
          | none => rw [hwp] at h; cases h
          | some wp =>
            rw [hwp] at h
            simp only [] at h
            by_cases hwon : ¬(decide (wp.teamId = pu.teamId) = true)
            · rw [if_pos hwon] at h; cases h
            · rw [if_neg hwon] at h
              obtain ⟨user, hu⟩ : ∃ user,
                  List.find? (fun v => v.id = u) db.users = some user := by
                cases hu0 : List.find? (fun v => v.id = u) db.users with
                | none => rw [hu0] at h; cases h
                | some x => exact ⟨x, rfl⟩
              rw [hu] at h
              simp only [Except.ok.injEq, Prod.mk.injEq] at h
              exact C9_ok_case db u b db1 rw1 user _ h1 hu h.1.symm h.2.symm
        · rw [if_neg htw] at h
          simp only [] at h
          by_cases hall : ¬(((List.filter (fun p => p.battleId = b) db.participants).all
              (fun p => p.teamId = pu.teamId ∨ p.currentHealth ≤ 0)) = true)
          · rw [if_pos hall] at h; cases h
          · rw [if_neg hall] at h
            obtain ⟨user, hu⟩ : ∃ user,
                List.find? (fun v => v.id = u) db.users = some user := by
              cases hu0 : List.find? (fun v => v.id = u) db.users with
              | none => rw [hu0] at h; cases h
              | some x => exact ⟨x, rfl⟩
            rw [hu] at h
            simp only [Except.ok.injEq, Prod.mk.injEq] at h
            exact C9_ok_case db u b db1 rw1 user _ h1 hu h.1.symm h.2.symm

/-- Witness: on the concrete finished battle `dbC9` the first claim succeeds
with 60 experience and the second claim is rejected as already claimed. -/
theorem C9_witness :
    processBattleRewards dbC9 "u1" "b1" = .ok (dbC9after, rwC9) ∧
    processBattleRewards dbC9after "u1" "b1" =
      .error "Você já recebeu recompensas por esta batalha" ∧
    dbC9after.battleRewards.any (fun r => r.userId = "u1" ∧ r.battleId = "b1") = true := by
  have hE : processBattleRewards dbC9 "u1" "b1" = .ok (dbC9after, rwC9) := by
    with_unfolding_all rfl
  have h := C9_rewards_claimed_once dbC9 "u1" "b1" dbC9after rwC9 hE
  exact ⟨hE, h.1, h.2.1⟩

lemma battle_foldl {α β : Type} (g : (Db × β) → α → (Db × β))
    (hg : ∀ acc x, ((g acc x).1).battle = acc.1.battle)
    (l : List α) (acc : Db × β) :
    ((l.foldl g acc).1).battle = acc.1.battle := by
  induction l generalizing acc with
  | nil => rfl
  | cons x xs ih => rw [List.foldl_cons, ih, hg]

lemma battle_applyStatusEffect (db : Db) (pid : String) (e : StatusEffectData) :
    ((applyStatusEffect db pid e).1).battle = db.battle := by
  unfold applyStatusEffect
  simp only []
  split <;> try rfl
  all_goals split <;> try rfl
  all_goals split <;> try rfl
  all_goals split <;> try rfl

lemma battle_applyBuff (db : Db) (pid : String) (b : BuffData) :
    ((applyBuff db pid b).1).battle = db.battle := by
  unfold applyBuff
  simp only []
  split <;> try rfl
  all_goals split <;> try rfl
  all_goals split <;> try rfl

lemma battle_processOneStatusEffect (p : Participant)
    (acc : Db × List (String × StatusTickResult)) (e : StatusEffectRow) :
    ((processOneStatusEffect p acc e).1).battle = acc.1.battle := by
  obtain ⟨db, results⟩ := acc
  unfold processOneStatusEffect
  simp only []
  split <;> try rfl
  all_goals split <;> try rfl
  all_goals split <;> try rfl
  all_goals split <;> try rfl
  all_goals split <;> try rfl

lemma battle_processOneBuff (p : Participant)
    (acc : Db × List (String × List String)) (b : BuffRow) :
    ((processOneBuff p acc b).1).battle = acc.1.battle := by
  obtain ⟨db, results⟩ := acc
  unfold processOneBuff
  simp only []
  split <;> rfl

lemma battle_processStatusEffects (db : Db) (ps : List Participant) :
    ((processStatusEffects db ps).1).battle = db.battle := by
  unfold processStatusEffects
  refine battle_foldl _ (fun acc p => ?_) ps (db, [])
  obtain ⟨d, results⟩ := acc
  exact battle_foldl _ (battle_processOneStatusEffect p) _ _

lemma battle_processBuffs (db : Db) (ps : List Participant) :
    ((processBuffs db ps).1).battle = db.battle := by
  unfold processBuffs
  refine battle_foldl _ (fun acc p => ?_) ps (db, [])
  obtain ⟨d, results⟩ := acc
  exact battle_foldl _ (battle_processOneBuff p) _ _

lemma resolveDamageOutcome_battle (bid : String) (p target : Participant)
    (result : BattleActionResult) (db : Db) (rng : Rng)
    (ar : List (String × BattleActionResult)) :
    loopBattleOk db (resolveDamageOutcome bid p target result db rng ar) := by
  unfold resolveDamageOutcome
  simp only []
  repeat' split
  all_goals try exact rfl
  all_goals try exact ⟨rfl, rfl⟩
  all_goals refine (battle_foldl _ ?_ _ _).trans ((battle_foldl _ ?_ _ _).trans (battle_foldl _ ?_ _ _))
  all_goals intro acc x
  all_goals split <;> first | exact battle_applyStatusEffect _ _ _ | exact battle_applyBuff _ _ _

lemma ppa_battle (s : List Participant) (c : List BattleAction)
    (se : List (String × StatusTickResult)) (bid : String) (p : Participant)
    (db : Db) (rng : Rng) (ar : List (String × BattleActionResult)) :
    loopBattleOk db (processParticipantAction s c se bid p db rng ar) := by
  unfold processParticipantAction
  simp only []
  repeat' split
  all_goals try exact rfl
  all_goals apply resolveDamageOutcome_battle

lemma loopBattleOk_trans {db d : Db} (h : d.battle = db.battle) {r : LoopResult}
    (hr : loopBattleOk d r) : loopBattleOk db r := by
  cases r with
  | done d2 rng a =>
    simp only [loopBattleOk] at hr ⊢
    rw [hr, h]
  | early w d2 rng a =>
    simp only [loopBattleOk] at hr ⊢
    rw [← h]
    exact hr

lemma runActionsLoop_battle (s : List Participant) (c : List BattleAction)
    (se : List (String × StatusTickResult)) (bid : String) :
    ∀ (ps : List Participant) (db : Db) (rng : Rng)
      (ar : List (String × BattleActionResult)),
      loopBattleOk db (runActionsLoop s c se bid ps db rng ar) := by
  intro ps
  induction ps with
  | nil => intro db rng ar; exact rfl
  | cons p rest ih =>
    intro db rng ar
    have h := ppa_battle s c se bid p db rng ar
    simp only [runActionsLoop]
    cases hres : processParticipantAction s c se bid p db rng ar with
    | early w d r a =>
      rw [hres] at h
      exact h
    | done d r a =>
      rw [hres] at h
      exact loopBattleOk_trans h (ih d r a)

lemma finishTurn_increment (bid : String) (lr : LoopResult) (db0 : Db)
    (tr : BattleTurnResult) (dbf : Db) (rngf : Rng)
    (hok : loopBattleOk db0 lr)
    (h : finishTurn bid lr = .ok (tr, dbf, rngf)) :
    dbf.battle.currentTurn = db0.battle.currentTurn + 1 := by
  cases lr with
  | early w d r a =>
    simp only [finishTurn, Except.ok.injEq, Prod.mk.injEq] at h
    obtain ⟨hw, hok2⟩ := hok
    rw [← h.2.1]
    exact hw
  | done d r a =>
    have hd : d.battle = db0.battle := hok
    simp only [finishTurn] at h
    split at h <;>
      (simp only [Except.ok.injEq, Prod.mk.injEq] at h
       rw [← h.2.1, ← hd])

lemma executeBattleTurn_increment (ai : Db → Participant → Option BattleAction)
    (db : Db) (battleId : String) (acts : List BattleAction) (rng : Rng)
    (tr : BattleTurnResult) (dbf : Db) (rngf : Rng)
    (h : executeBattleTurn ai db battleId acts rng = .ok (tr, dbf, rngf)) :
    dbf.battle.currentTurn = db.battle.currentTurn + 1 := by
  unfold executeBattleTurn at h
  by_cases hid : db.battle.id ≠ battleId
  · rw [if_pos hid] at h; cases h
  rw [if_neg hid] at h
  simp only [] at h
  exact finishTurn_increment _ _ _ _ _ _
    (loopBattleOk_trans
      ((battle_processBuffs _ _).trans (battle_processStatusEffects _ _))
      (runActionsLoop_battle _ _ _ _ _ _ _ _)) h

/-- C8: every successful `executeBattleTurn` call increments the stored turn
counter exactly once (the early-finish path and the normal end-of-turn path
never both increment it); and in the concrete scenario in which a single
player action brings every enemy participant to 0 health, the call returns
`isFinished = true` with winning team `"player"` and stops processing the
remaining actions of the turn (only `P1` has a result entry). -/
theorem C8_early_finish_single_increment :
    (∀ (ai : Db → Participant → Option BattleAction) (db : Db) (battleId : String)
       (acts : List BattleAction) (rng : Rng) (tr : BattleTurnResult) (dbf : Db) (rngf : Rng),
       executeBattleTurn ai db battleId acts rng = .ok (tr, dbf, rngf) →
       dbf.battle.currentTurn = db.battle.currentTurn + 1) ∧
    (etbC8 = .ok (trC8, dbC8done, rngC8done) ∧
     trC8.isFinished = true ∧
     trC8.winnerTeam = some "player" ∧
     trC8.actionResults.map Prod.fst = ["P1"] ∧
     dbC8done.battle.currentTurn = dbC8.battle.currentTurn + 1) := by
  refine ⟨fun ai db bid acts rng tr dbf rngf h =>
    executeBattleTurn_increment ai db bid acts rng tr dbf rngf h, ?_, ?_, ?_, ?_, ?_⟩
  · with_unfolding_all rfl
  · with_unfolding_all decide
  · with_unfolding_all decide
  · with_unfolding_all decide
  · with_unfolding_all decide

theorem C8_witness :
    dbC8done.battle.currentTurn = dbC8.battle.currentTurn + 1 :=
  C8_early_finish_single_increment.1 (fun _ _ => none) dbC8 "b1" actsC8 [1/2, 1/2]
    trC8 dbC8done rngC8done (by with_unfolding_all rfl)

/-- What `validateAction` does to the actor id, as one closed form. -/
lemma validateAction_actorId (ps : List Participant) (a : BattleAction) :
    (validateAction ps a).actorId =
      match ps.find? (fun p => p.id = a.actorId) with
      | some _ => a.actorId
      | none =>
        match ps.find? (fun p => p.userId = some a.actorId) with
        | some u => u.id
        | none =>
          match ps.find? (fun p => p.enemyId = some a.actorId) with
          | some e => e.id
          | none => a.actorId := by
  unfold validateAction
  simp only []
  repeat' split
  all_goals rfl

/-- What `validateAction` does to the target id, as one closed form. -/
lemma validateAction_targetId (ps : List Participant) (a : BattleAction) :
    (validateAction ps a).targetId =
      match ps.find? (fun p => p.id = a.targetId) with
      | some _ => a.targetId
      | none =>
        match ps.find? (fun p => p.userId = some a.targetId) with
        | some u => u.id
        | none =>
          match ps.find? (fun p => p.enemyId = some a.targetId) with
          | some e => e.id
          | none => a.targetId := by
  unfold validateAction
  simp only []
  cases hA : ps.find? (fun p => p.id = a.actorId) with
  | some q0 =>
    simp only []
    repeat' split
    all_goals first | rfl | simp_all
  | none =>
    simp only []
    cases hU : ps.find? (fun p => p.userId = some a.actorId) with
    | some u =>
      simp only []
      repeat' split
      all_goals first | rfl | simp_all
    | none =>
      simp only []
      cases hE : ps.find? (fun p => p.enemyId = some a.actorId) with
      | some e =>
        simp only []
        repeat' split
        all_goals first | rfl | simp_all
      | none =>
        simp only []
        repeat' split
        all_goals first | rfl | simp_all

lemma setResult_keys {α : Type} (l : List (String × α)) (k0 : String) (v : α) (k : String)
    (hk : k ∈ (setResult l k0 v).map Prod.fst) : k ∈ l.map Prod.fst ∨ k = k0 := by
  unfold setResult at hk
  split at hk
  · simp only [List.map_map, List.mem_map, Function.comp] at hk
    obtain ⟨kv, hkv, hproj⟩ := hk
    by_cases h : kv.1 = k0
    · rw [if_pos h] at hproj
      exact Or.inr hproj.symm
    · rw [if_neg h] at hproj
      exact Or.inl (List.mem_map.mpr ⟨kv, hkv, hproj⟩)
  · rw [List.map_append, List.mem_append] at hk
    rcases hk with hk | hk
    · exact Or.inl hk
    · simp only [List.map_cons, List.map_nil, List.mem_singleton] at hk
      exact Or.inr hk

lemma rdo_keys (bid : String) (p target : Participant) (res : BattleActionResult)
    (db : Db) (rng : Rng) (ar : List (String × BattleActionResult)) (k : String)
    (hk : k ∈ (loopResults (resolveDamageOutcome bid p target res db rng ar)).map Prod.fst) :
    k ∈ ar.map Prod.fst ∨ k = p.id := by
  unfold resolveDamageOutcome at hk
  simp only [] at hk
  repeat' split at hk
  all_goals exact setResult_keys _ _ _ _ hk

lemma ppa_keys (s : List Participant) (c : List BattleAction)
    (se : List (String × StatusTickResult)) (bid : String) (p : Participant)
    (db : Db) (rng : Rng) (ar : List (String × BattleActionResult)) (k : String)
    (hk : k ∈ (loopResults (processParticipantAction s c se bid p db rng ar)).map Prod.fst) :
    k ∈ ar.map Prod.fst ∨ k = p.id := by
  unfold processParticipantAction at hk
  simp only [] at hk
  repeat' split at hk
  all_goals first
    | exact Or.inl hk
    | exact setResult_keys _ _ _ _ hk
    | exact rdo_keys _ _ _ _ _ _ _ _ hk

lemma runActionsLoop_keys (s : List Participant) (c : List BattleAction)
    (se : List (String × StatusTickResult)) (bid : String) :
    ∀ (ps : List Participant) (db : Db) (rng : Rng)
      (ar : List (String × BattleActionResult)) (k : String),
      k ∈ (loopResults (runActionsLoop s c se bid ps db rng ar)).map Prod.fst →
      k ∈ ar.map Prod.fst ∨ ∃ p, p ∈ ps ∧ k = p.id := by
  intro ps
  induction ps with
  | nil => intro db rng ar k hk; exact Or.inl hk
  | cons p rest ih =>
    intro db rng ar k hk
    simp only [runActionsLoop] at hk
    cases hres : processParticipantAction s c se bid p db rng ar with
    | early w d r a =>
      rw [hres] at hk
      rcases ppa_keys s c se bid p db rng ar k (by rw [hres]; exact hk) with h | h
      · exact Or.inl h
      · exact Or.inr ⟨p, List.mem_cons_self p rest, h⟩
    | done d r a =>
      rw [hres] at hk
      rcases ih d r a k hk with h | ⟨q, hq, hkq⟩
      · rcases ppa_keys s c se bid p db rng ar k (by rw [hres]; exact h) with h2 | h2
        · exact Or.inl h2
        · exact Or.inr ⟨p, List.mem_cons_self p rest, h2⟩
      · exact Or.inr ⟨q, List.mem_cons_of_mem p hq, hkq⟩

lemma finishTurn_results (bid : String) (lr : LoopResult) (tr : BattleTurnResult)
    (dbf : Db) (rngf : Rng) (h : finishTurn bid lr = .ok (tr, dbf, rngf)) :
    tr.actionResults = loopResults lr := by
  cases lr with
  | early w d r a =>
    simp only [finishTurn, Except.ok.injEq, Prod.mk.injEq] at h
    rw [← h.1]
    rfl
  | done d r a =>
    simp only [finishTurn] at h
    split at h <;>
      (simp only [Except.ok.injEq, Prod.mk.injEq] at h
       rw [← h.1]
       rfl)

/-- C10: an action id that is no participant id is rewritten by the first
matching underlying user id, else the first matching underlying enemy id, and
left alone when nothing matches; and during resolution every per-actor result
entry of a successful `executeBattleTurn` call is keyed by the id of a
participant of the battle, so an action whose rewritten actor id matches no
participant is skipped silently, with no result entry and no message under
that id. -/
theorem C10_action_id_resolution :
    (∀ (ps : List Participant) (a : BattleAction) (u : Participant),
       ps.find? (fun p => p.id = a.actorId) = none →
       ps.find? (fun p => p.userId = some a.actorId) = some u →
       (validateAction ps a).actorId = u.id) ∧
    (∀ (ps : List Participant) (a : BattleAction) (e : Participant),
       ps.find? (fun p => p.id = a.actorId) = none →
       ps.find? (fun p => p.userId = some a.actorId) = none →
       ps.find? (fun p => p.enemyId = some a.actorId) = some e →
       (validateAction ps a).actorId = e.id) ∧
    (∀ (ps : List Participant) (a : BattleAction) (u : Participant),
       ps.find? (fun p => p.id = a.targetId) = none →
       ps.find? (fun p => p.userId = some a.targetId) = some u →
       (validateAction ps a).targetId = u.id) ∧
    (∀ (ps : List Participant) (a : BattleAction) (e : Participant),
       ps.find? (fun p => p.id = a.targetId) = none →
       ps.find? (fun p => p.userId = some a.targetId) = none →
       ps.find? (fun p => p.enemyId = some a.targetId) = some e →
       (validateAction ps a).targetId = e.id) ∧
    (∀ (ps : List Participant) (a : BattleAction),
       ps.find? (fun p => p.id = a.actorId) = none →
       ps.find? (fun p => p.userId = some a.actorId) = none →
       ps.find? (fun p => p.enemyId = some a.actorId) = none →
       (validateAction ps a).actorId = a.actorId) ∧
    (∀ (ai : Db → Participant → Option BattleAction) (db : Db) (battleId : String)
       (acts : List BattleAction) (rng : Rng) (tr : BattleTurnResult) (dbf : Db)
       (rngf : Rng) (k : String),
       executeBattleTurn ai db battleId acts rng = .ok (tr, dbf, rngf) →
       k ∈ tr.actionResults.map Prod.fst →
       ∃ p, p ∈ db.participants ∧ p.battleId = battleId ∧ p.id = k) ∧
    (∀ (ai : Db → Participant → Option BattleAction) (db : Db) (battleId : String)
       (acts : List BattleAction) (rng : Rng) (tr : BattleTurnResult) (dbf : Db)
       (rngf : Rng) (k : String),
       executeBattleTurn ai db battleId acts rng = .ok (tr, dbf, rngf) →
       (∀ p, p ∈ db.participants → p.battleId = battleId → p.id ≠ k) →
       tr.actionResults.find? (fun kv => kv.1 = k) = none) := by
  have hkeys : ∀ (ai : Db → Participant → Option BattleAction) (db : Db) (battleId : String)
      (acts : List BattleAction) (rng : Rng) (tr : BattleTurnResult) (dbf : Db)
      (rngf : Rng) (k : String),
      executeBattleTurn ai db battleId acts rng = .ok (tr, dbf, rngf) →
      k ∈ tr.actionResults.map Prod.fst →
      ∃ p, p ∈ db.participants ∧ p.battleId = battleId ∧ p.id = k := by
    intro ai db battleId acts rng tr dbf rngf k h hk
    unfold executeBattleTurn at h
    by_cases hid : db.battle.id ≠ battleId
    · rw [if_pos hid] at h; cases h
    rw [if_neg hid] at h
    simp only [] at h
    rw [finishTurn_results _ _ _ _ _ h] at hk
    rcases runActionsLoop_keys _ _ _ _ _ _ _ _ k hk with h0 | ⟨p, hp, hkp⟩
    · simp at h0
    · simp only [orderParticipantsBySpeed, List.mem_mergeSort, List.mem_filter,
        decide_eq_true_eq] at hp
      exact ⟨p, hp.1, hp.2, hkp.symm⟩
  refine ⟨?_, ?_, ?_, ?_, ?_, hkeys, ?_⟩
  · intro ps a u h1 h2
    rw [validateAction_actorId, h1, h2]
  · intro ps a e h1 h2 h3
    rw [validateAction_actorId, h1, h2, h3]
  · intro ps a u h1 h2
    rw [validateAction_targetId, h1, h2]
  · intro ps a e h1 h2 h3
    rw [validateAction_targetId, h1, h2, h3]
  · intro ps a h1 h2 h3
    rw [validateAction_actorId, h1, h2, h3]
  · intro ai db battleId acts rng tr dbf rngf k h hnone
    rw [List.find?_eq_none]
    intro kv hkv
    simp only [decide_eq_true_eq]
    intro hk1
    obtain ⟨p, hp, hpb, hpk⟩ := hkeys ai db battleId acts rng tr dbf rngf k h
      (List.mem_map.mpr ⟨kv, hkv, hk1⟩)
    exact hnone p hp hpb hpk

/-- Witness: an action naming user `u1` instead of participant `P1` is
rewritten to act as `P1`. -/
theorem C10_witness :
    (validateAction [pUser]
      { actorId := "u1", targetId := "P1", skillId := "s1" }).actorId = "P1" :=
  C10_action_id_resolution.1 [pUser] { actorId := "u1", targetId := "P1", skillId := "s1" }
    pUser (by with_unfolding_all rfl) (by with_unfolding_all rfl)

end Mindforge
